import Mathlib

/-!
Shallow embedding of `src/pycel/excelutil.py` (the pycel reference-resolution
and operator-coercion utilities) and proofs about it.

Conventions of the embedding:
* Python strings are Lean `String`s; all content inspection happens on the
  underlying `List Char` (`String.data`).
* Python `int` is `ℤ`; Python `float` is modelled as an exact rational `ℚ`
  (IEEE rounding is idealized away; none of the verified properties depend
  on rounding).  Rational arithmetic is implemented with `mkRat`-based
  helpers so that every definition evaluates inside the kernel.
* Fallible Python code returns `Except PyErr α`; a raised exception is
  `.error e`.
* The diagnostic callback `capture_error_state` is modelled by returning the
  list of `(discard_existing, message)` pairs it was invoked with.
-/

namespace PycelU

/-! ## Rational helpers (kernel-computable, built on `mkRat`) -/

/-- Addition on `ℚ` via `mkRat` (kernel-reducible, equal to `+`). -/
def qadd (a b : ℚ) : ℚ := mkRat (a.num * b.den + b.num * a.den) (a.den * b.den)

/-- Subtraction on `ℚ` via `mkRat`. -/
def qsub (a b : ℚ) : ℚ := mkRat (a.num * b.den - b.num * a.den) (a.den * b.den)

/-- Multiplication on `ℚ` via `mkRat`. -/
def qmul (a b : ℚ) : ℚ := mkRat (a.num * b.num) (a.den * b.den)

/-- Reciprocal on `ℚ` via `mkRat` (0 for 0, which callers guard against). -/
def qinv (b : ℚ) : ℚ :=
  if b.num < 0 then mkRat (-(b.den : ℤ)) b.num.natAbs else mkRat (b.den : ℤ) b.num.natAbs

/-- Division on `ℚ` via `mkRat`. -/
def qdiv (a b : ℚ) : ℚ := qmul a (qinv b)

/-- Strict comparison on `ℚ` by cross multiplication (denominators are positive). -/
def qlt (a b : ℚ) : Bool := a.num * (b.den : ℤ) < b.num * (a.den : ℤ)

/-- Non-strict comparison on `ℚ` by cross multiplication. -/
def qle (a b : ℚ) : Bool := a.num * (b.den : ℤ) ≤ b.num * (a.den : ℤ)

/-- `a ^ n` for a natural exponent, by iterated `qmul`. -/
def qnpow (a : ℚ) : ℕ → ℚ
  | 0 => mkRat 1 1
  | n + 1 => qmul a (qnpow a n)

/-- `a ^ z` for an integer exponent (callers guard `a = 0 ∧ z < 0`). -/
def qzpow (a : ℚ) (z : ℤ) : ℚ :=
  if 0 ≤ z then qnpow a z.toNat else qinv (qnpow a z.natAbs)

/-- Truncation toward zero, Python's `int(float)`. -/
def qtrunc (q : ℚ) : ℤ := if 0 ≤ q.num then q.floor else q.ceil

/-- Floor division `a // b` on rationals (Python semantics). -/
def qfloordiv (a b : ℚ) : ℚ := mkRat (qdiv a b).floor 1

/-- `a % b` on rationals: `a - b * (a // b)` (Python sign-of-divisor semantics). -/
def qmod (a b : ℚ) : ℚ := qsub a (qmul b (qfloordiv a b))

/-! ## Characters, digit strings, letter strings -/

/-- The decimal digit characters. -/
def digitChar : ℕ → Char
  | 0 => '0' | 1 => '1' | 2 => '2' | 3 => '3' | 4 => '4'
  | 5 => '5' | 6 => '6' | 7 => '7' | 8 => '8' | 9 => '9'
  | _ => '*'

/-- Numeric value of a decimal digit character. -/
def digitVal (c : Char) : ℕ := c.toNat - 48

/-- Value of a digit string, most significant first. -/
def digitsVal (cs : List Char) : ℕ := cs.foldl (fun a c => a * 10 + digitVal c) 0

/-- Decimal rendering of a natural number; `fuel ≥ n` makes it total and
structural (hence kernel-reducible). -/
def natDigitsF : ℕ → ℕ → List Char
  | 0, _ => []
  | fuel + 1, n => if n = 0 then [] else natDigitsF fuel (n / 10) ++ [digitChar (n % 10)]

/-- Decimal rendering of a natural number (Python `str(n)` for `n ≥ 0`). -/
def natDigits (n : ℕ) : List Char := if n = 0 then ['0'] else natDigitsF n n

/-- Decimal rendering of an integer (Python `str(i)`). -/
def intDigits (i : ℤ) : List Char :=
  if i < 0 then '-' :: natDigits i.natAbs else natDigits i.toNat

/-- Uppercase base-26 column letter characters. -/
def letterChar : ℕ → Char
  | 0 => 'A' | 1 => 'B' | 2 => 'C' | 3 => 'D' | 4 => 'E' | 5 => 'F'
  | 6 => 'G' | 7 => 'H' | 8 => 'I' | 9 => 'J' | 10 => 'K' | 11 => 'L'
  | 12 => 'M' | 13 => 'N' | 14 => 'O' | 15 => 'P' | 16 => 'Q' | 17 => 'R'
  | 18 => 'S' | 19 => 'T' | 20 => 'U' | 21 => 'V' | 22 => 'W' | 23 => 'X'
  | 24 => 'Y' | 25 => 'Z'
  | _ => '*'

/-- Ordinal of an uppercase letter, `'A' ↦ 0`. -/
def letterVal (c : Char) : ℕ := c.toNat - 65

/-- Column index denoted by a letter string (bijective base 26), `"A" ↦ 1`. -/
def lettersVal (cs : List Char) : ℕ := cs.foldl (fun a c => a * 26 + (letterVal c + 1)) 0

/-- Column letters for a 1-based column index, the base-26-with-no-zero-digit
algorithm of `openpyxl.utils.get_column_letter`: repeatedly take
`(n-1) % 26` as a letter and continue with `(n-1) / 26`.  `fuel ≥ n` makes
it structural. -/
def colLettersF : ℕ → ℕ → List Char
  | 0, _ => []
  | fuel + 1, n =>
    if n = 0 then [] else colLettersF fuel ((n - 1) / 26) ++ [letterChar ((n - 1) % 26)]

/-- Column letters for a 1-based column index (`1 ↦ "A"`, `27 ↦ "AA"`). -/
def colLetters (n : ℕ) : List Char := colLettersF n n

/-- Is this character an uppercase ASCII letter? -/
def isUpperAZ (c : Char) : Bool := 'A' ≤ c && c ≤ 'Z'

/-- ASCII lowering of one character (model of Python `str.lower` on ASCII). -/
def asciiLowerChar (c : Char) : Char :=
  if 'A' ≤ c && c ≤ 'Z' then Char.ofNat (c.toNat + 32) else c

/-- ASCII uppering of one character (model of Python `str.upper`). -/
def asciiUpperChar (c : Char) : Char :=
  if 'a' ≤ c && c ≤ 'z' then Char.ofNat (c.toNat - 32) else c

/-- Python `s.lower()` (modelled for ASCII). -/
def pyLower (s : String) : String := ⟨s.data.map asciiLowerChar⟩

/-- Strip leading and trailing whitespace, Python `str.strip()`. -/
def trimWs (cs : List Char) : List Char :=
  ((cs.dropWhile Char.isWhitespace).reverse.dropWhile Char.isWhitespace).reverse

/-- Parse a nonempty all-digit string. -/
def parseDigits (cs : List Char) : Option ℕ :=
  if cs ≠ [] ∧ cs.all Char.isDigit then some (digitsVal cs) else none

/-- Python `int(s)` on a string: optional surrounding whitespace, optional
sign, then decimal digits (underscore separators and non-ASCII digits are
not modelled). `none` models a raised `ValueError`. -/
def pyParseInt (cs : List Char) : Option ℤ :=
  match trimWs cs with
  | '-' :: ds => (parseDigits ds).map (fun n => -(n : ℤ))
  | '+' :: ds => (parseDigits ds).map (fun n => (n : ℤ))
  | ds => (parseDigits ds).map (fun n => (n : ℤ))

/-- Helper for `pyParseFloat`: mantissa and exponent to an exact rational. -/
def floatOfParts (neg : Bool) (ip fp : List Char) (e : ℤ) : ℚ :=
  let m : ℤ := (digitsVal ip : ℤ) * 10 ^ fp.length + (digitsVal fp : ℤ)
  let m := if neg then -m else m
  if 0 ≤ e then mkRat (m * 10 ^ e.toNat) (10 ^ fp.length)
  else mkRat m (10 ^ (fp.length + e.natAbs))

/-- Python `float(s)` on a string: optional whitespace and sign, digits with
an optional decimal point (at least one digit), and an optional exponent.
The value is the exact rational denoted by the literal (`inf`/`nan` and
IEEE rounding are not modelled).  `none` models a raised `ValueError`. -/
def pyParseFloat (cs : List Char) : Option ℚ :=
  let t := trimWs cs
  let (neg, t1) : Bool × List Char :=
    match t with
    | '-' :: r => (true, r)
    | '+' :: r => (false, r)
    | r => (false, r)
  let ip := t1.takeWhile Char.isDigit
  let t2 := t1.dropWhile Char.isDigit
  let (fp, t3) : List Char × List Char :=
    match t2 with
    | '.' :: r => (r.takeWhile Char.isDigit, r.dropWhile Char.isDigit)
    | r => ([], r)
  if ip = [] ∧ fp = [] then none
  else
    match t3 with
    | [] => some (floatOfParts neg ip fp 0)
    | e :: r =>
      if e = 'e' ∨ e = 'E' then
        let (eneg, r1) : Bool × List Char :=
          match r with
          | '-' :: r2 => (true, r2)
          | '+' :: r2 => (false, r2)
          | r2 => (false, r2)
        match parseDigits r1 with
        | some ev =>
          some (floatOfParts neg ip fp (if eneg then -(ev : ℤ) else (ev : ℤ)))
        | none => none
      else none

/-! ## The Python value universe of the coercion engine -/

/-- Operand values: `None`, booleans, ints, floats, strings. -/
inductive PyVal where
  | none
  | bool (b : Bool)
  | int (i : ℤ)
  | float (q : ℚ)
  | str (s : String)
deriving DecidableEq

/-- Modelled Python exceptions. -/
inductive PyErr where
  | valueError (msg : String)
  | typeError
  | zeroDivisionError
  | assertionError (msg : String)
  | pycelException (msg : String)
  | attributeError
  | indexError
  | unmodelled
deriving DecidableEq

deriving instance DecidableEq for Except

/-- The division-by-zero error-code literal. -/
def DIV0 : String := "#DIV/0!"

/-- The value-type error-code literal. -/
def VALUE_ERROR : String := "#VALUE!"

/-- The empty-cell sentinel literal. -/
def EMPTY : String := "#EMPTY!"

/-- Row limit of a sheet. -/
def MAX_ROW : ℤ := 1048576

/-- Column limit of a sheet. -/
def MAX_COL : ℤ := 16384

/-- Is the value a Python `str`? (`isinstance(v, str)`). -/
def PyVal.isStr : PyVal → Bool
  | .str _ => true
  | _ => false

/-- Numeric view: `some (isFloat, value)` for ints, floats and bools
(Python `bool` is an `int` subclass with values 0/1). -/
def asNum? : PyVal → Option (Bool × ℚ)
  | .int i => some (false, (i : ℚ))
  | .float q => some (true, q)
  | .bool b => some (false, if b then mkRat 1 1 else mkRat 0 1)
  | _ => Option.none

/-- Integer view for int-only primitives (shifts, bitwise ops):
ints and bools. -/
def intLike : PyVal → Option ℤ
  | .int i => some i
  | .bool b => some (if b then 1 else 0)
  | _ => Option.none

/-- Python `==` on operand values: numeric cross-type equality between
ints, floats and bools; strings by content; `None` equal only to itself;
everything else unequal. -/
def pyEq (a b : PyVal) : Bool :=
  match a, b with
  | .none, .none => true
  | .str x, .str y => decide (x = y)
  | _, _ =>
    match asNum? a, asNum? b with
    | some (_, x), some (_, y) => decide (x = y)
    | _, _ => false

/-- Python `str(v)` (model; non-integral floats are rendered as
`num/den`, which differs from CPython's decimal rendering but is only
used inside diagnostic messages and text-join of floats). -/
def pyStr : PyVal → String
  | .none => "None"
  | .bool b => if b then "True" else "False"
  | .int i => ⟨intDigits i⟩
  | .float q =>
    if q.den = 1 then ⟨intDigits q.num ++ ['.', '0']⟩
    else ⟨intDigits q.num ++ '/' :: natDigits q.den⟩
  | .str s => s

/-- Python type name of a value. -/
def pyTypeName : PyVal → String
  | .none => "NoneType"
  | .bool _ => "bool"
  | .int _ => "int"
  | .float _ => "float"
  | .str _ => "str"

/-- The binary operator keys of `PYTHON_AST_OPERATORS`. -/
inductive Op where
  | Eq | Lt | Gt | LtE | GtE | NotEq
  | Add | Sub | Mult | Div | FloorDiv | Mod | Pow
  | LShift | RShift | BitOr | BitXor | BitAnd | MatMult
deriving DecidableEq

/-- The Python string naming an operator (the dictionary key). -/
def opName : Op → String
  | .Eq => "Eq" | .Lt => "Lt" | .Gt => "Gt" | .LtE => "LtE" | .GtE => "GtE"
  | .NotEq => "NotEq" | .Add => "Add" | .Sub => "Sub" | .Mult => "Mult"
  | .Div => "Div" | .FloorDiv => "FloorDiv" | .Mod => "Mod" | .Pow => "Pow"
  | .LShift => "LShift" | .RShift => "RShift" | .BitOr => "BitOr"
  | .BitXor => "BitXor" | .BitAnd => "BitAnd" | .MatMult => "MatMult"

/-- String repetition, Python `s * n`. -/
def strRepeat (s : String) (n : ℤ) : String :=
  ⟨(List.replicate n.toNat s.data).flatten⟩

/-- Ordered comparison shared by `Lt`/`Gt`/`LtE`/`GtE`: strings compare with
strings (lexicographically), numbers (ints/floats/bools) with numbers;
any other pairing raises `TypeError`. -/
def pyCompare (a b : PyVal) : Except PyErr (Ordering) :=
  match a, b with
  | .str x, .str y => .ok (compare x y)
  | _, _ =>
    match asNum? a, asNum? b with
    | some (_, x), some (_, y) =>
      .ok (if qlt x y then Ordering.lt else if x = y then Ordering.eq else Ordering.gt)
    | _, _ => .error .typeError

/-- Numeric binary operation: int op when both operands are int-like,
float op when at least one is a float, `TypeError` otherwise. -/
def numBin (g : ℤ → ℤ → ℤ) (f : ℚ → ℚ → ℚ) (a b : PyVal) : Except PyErr PyVal :=
  match intLike a, intLike b with
  | some i, some j => .ok (.int (g i j))
  | _, _ =>
    match asNum? a, asNum? b with
    | some (_, x), some (_, y) => .ok (.float (f x y))
    | _, _ => .error .typeError

/-- The concrete primitive for each operator key of `PYTHON_AST_OPERATORS`,
on operand values, with Python's raising behaviour: `ZeroDivisionError`
for zero division, `TypeError` for unsupported operand types,
`ValueError` for a negative shift count.  (Printf-style `%` formatting
with a string left operand, and float powers with non-integral exponents,
are flattened to `TypeError` / `unmodelled` respectively.) -/
def pyApplyOp (op : Op) (a b : PyVal) : Except PyErr PyVal :=
  match op with
  | .Eq => .ok (.bool (pyEq a b))
  | .NotEq => .ok (.bool (!pyEq a b))
  | .Lt => (pyCompare a b).map (fun o => .bool (o = Ordering.lt))
  | .Gt => (pyCompare a b).map (fun o => .bool (o = Ordering.gt))
  | .LtE => (pyCompare a b).map (fun o => .bool (o ≠ Ordering.gt))
  | .GtE => (pyCompare a b).map (fun o => .bool (o ≠ Ordering.lt))
  | .Add =>
    match a, b with
    | .str x, .str y => .ok (.str (x ++ y))
    | _, _ => numBin (· + ·) qadd a b
  | .Sub => numBin (· - ·) qsub a b
  | .Mult =>
    match a, b with
    | .str x, other =>
      match intLike other with
      | some n => .ok (.str (strRepeat x n))
      | _ => .error .typeError
    | other, .str y =>
      match intLike other with
      | some n => .ok (.str (strRepeat y n))
      | _ => .error .typeError
    | _, _ => numBin (· * ·) qmul a b
  | .Div =>
    match asNum? a, asNum? b with
    | some (_, x), some (_, y) =>
      if y = 0 then .error .zeroDivisionError else .ok (.float (qdiv x y))
    | _, _ => .error .typeError
  | .FloorDiv =>
    match asNum? a, asNum? b with
    | some (_, _), some (_, y) =>
      if y = 0 then .error .zeroDivisionError
      else numBin Int.fdiv qfloordiv a b
    | _, _ => .error .typeError
  | .Mod =>
    match asNum? a, asNum? b with
    | some (_, _), some (_, y) =>
      if y = 0 then .error .zeroDivisionError
      else numBin Int.fmod qmod a b
    | _, _ => .error .typeError
  | .Pow =>
    match asNum? a, asNum? b with
    | some (fa, x), some (fb, y) =>
      if y.den = 1 then
        if x = 0 ∧ y.num < 0 then .error .zeroDivisionError
        else
          let v := qzpow x y.num
          if fa ∨ fb ∨ y.num < 0 then .ok (.float v) else .ok (.int v.num)
      else .error .unmodelled
    | _, _ => .error .typeError
  | .LShift =>
    match intLike a, intLike b with
    | some i, some n =>
      if n < 0 then .error (.valueError "negative shift count")
      else .ok (.int (i * 2 ^ n.toNat))
    | _, _ => .error .typeError
  | .RShift =>
    match intLike a, intLike b with
    | some i, some n =>
      if n < 0 then .error (.valueError "negative shift count")
      else .ok (.int (Int.fdiv i (2 ^ n.toNat)))
    | _, _ => .error .typeError
  | .BitOr =>
    match a, b with
    | .bool x, .bool y => .ok (.bool (x || y))
    | _, _ =>
      match intLike a, intLike b with
      | some i, some j => .ok (.int (Int.lor i j))
      | _, _ => .error .typeError
  | .BitXor =>
    match a, b with
    | .bool x, .bool y => .ok (.bool (Bool.xor x y))
    | _, _ =>
      match intLike a, intLike b with
      | some i, some j => .ok (.int (Int.xor i j))
      | _, _ => .error .typeError
  | .BitAnd =>
    match a, b with
    | .bool x, .bool y => .ok (.bool (x && y))
    | _, _ =>
      match intLike a, intLike b with
      | some i, some j => .ok (.int (Int.land i j))
      | _, _ => .error .typeError
  | .MatMult => .error .typeError

/-- `is_number(s)`: does `float(s)` succeed? -/
def is_number : PyVal → Bool
  | .str s => (pyParseFloat s.data).isSome
  | .none => false
  | _ => true

/-- Python `int(v)` for a numeric value (truncation toward zero). -/
def pyIntOf (v : PyVal) : ℤ :=
  match v with
  | .int i => i
  | .float q => qtrunc q
  | .bool b => if b then 1 else 0
  | _ => 0

/-- `coerce_to_number(value)`.  Non-strings: a numeric value whose `int` and
`float` forms are equal is narrowed to an int, anything else is returned
unchanged.  Strings: the `DIV0` literal evaluates `1 / 0`, raising
`ZeroDivisionError` (uncaught: the surrounding handler catches only
`ValueError` and `TypeError`); text without a decimal point tries `int`;
then `float` is tried; unparseable text is returned unchanged. -/
def coerce_to_number (value : PyVal) : Except PyErr PyVal :=
  match value with
  | .str s =>
    if s = DIV0 then .error .zeroDivisionError
    else if ¬ s.data.contains '.' ∧ (pyParseInt s.data).isSome then
      .ok (.int ((pyParseInt s.data).getD 0))
    else
      match pyParseFloat s.data with
      | some q => .ok (.float q)
      | Option.none => .ok (.str s)
  | v =>
    if is_number v ∧ (mkRat (pyIntOf v) 1) = ((asNum? v).getD (false, 0)).2 then
      .ok (.int (pyIntOf v))
    else .ok v

/-- Is the operand the blank sentinel, i.e. `v in (None, '#EMPTY!')`? -/
def isBlank (v : PyVal) : Bool :=
  match v with
  | .none => true
  | .str s => decide (s = EMPTY)
  | _ => false

/-- Blank substitution of `fixup`: a null/empty operand becomes `0` unless
the other operand is a string different from the empty-cell sentinel, in
which case it becomes `''`. -/
def blank_subst (other : PyVal) : PyVal :=
  if ¬ other.isStr ∨ other = .str EMPTY then .int 0 else .str ""

/-- A captured diagnostic: the `(discard_existing, message)` arguments of
`capture_error_state`. -/
abbrev Diag := Bool × String

/-- The message for the string-multiplication diagnostic. -/
def multMsg (l r : PyVal) : String :=
  "Cannot multiple type: " ++ pyTypeName l ++ "(" ++ pyStr l ++ ") * " ++
    pyTypeName r ++ "(" ++ pyStr r ++ ")"

/-- The message for the caught-exception diagnostics. -/
def valuesMsg (l : PyVal) (op : Op) (r : PyVal) : String :=
  "Values: " ++ pyStr l ++ " " ++ opName op ++ " " ++ pyStr r

/-- Operator-specific coercion step of `fixup`: `Eq`/`NotEq` lower-case a
pair of strings (and otherwise leave the operands untouched); `BitAnd`
stringifies both coerced operands and becomes `Add`; every other operator
coerces both operands with `coerce_to_number`. -/
def opCoerce (l : PyVal) (op : Op) (r : PyVal) :
    Except PyErr (PyVal × Op × PyVal) :=
  if op = .Eq ∨ op = .NotEq then
    if l.isStr ∧ r.isStr then
      match l, r with
      | .str a, .str b => .ok (.str (pyLower a), op, .str (pyLower b))
      | _, _ => .ok (l, op, r)
    else .ok (l, op, r)
  else if op = .BitAnd then
    match coerce_to_number l with
    | .error e => .error e
    | .ok l1 =>
      match coerce_to_number r with
      | .error e => .error e
      | .ok r1 => .ok (.str (pyStr l1), .Add, .str (pyStr r1))
  else
    match coerce_to_number l with
    | .error e => .error e
    | .ok l1 =>
      match coerce_to_number r with
      | .error e => .error e
      | .ok r1 => .ok (l1, op, r1)

/-- The tail of `fixup` after error dominance and blank substitution:
operator-specific coercion, the string-multiplication guard (lines
847–857), then dispatch through `PYTHON_AST_OPERATORS` with
`ZeroDivisionError` and `TypeError` (only) caught and converted to error
codes with a diagnostic (lines 859–868). -/
def fixup_dispatch (l1 : PyVal) (op : Op) (r1 : PyVal) :
    Except PyErr PyVal × List Diag :=
  match opCoerce l1 op r1 with
  | .error e => (.error e, [])
  | .ok (l2, op2, r2) =>
    if op2 = .Mult ∧ (l2.isStr ∨ r2.isStr) then
      (.ok (.str VALUE_ERROR), [(false, multMsg l2 r2)])
    else
      match pyApplyOp op2 l2 r2 with
      | .ok v => (.ok v, [])
      | .error .zeroDivisionError =>
        (.ok (.str DIV0), [(true, valuesMsg l2 op2 r2)])
      | .error .typeError =>
        (.ok (.str VALUE_ERROR), [(true, valuesMsg l2 op2 r2)])
      | .error e => (.error e, [])

/-- `fixup(left_op, op, right_op)` of `build_operator_operand_fixup`:
error-code dominance, blank substitution, operator-specific coercion, the
string-multiplication guard, then dispatch through
`PYTHON_AST_OPERATORS` with `ZeroDivisionError` and `TypeError` (only)
caught and converted to error codes.  Returns the result (or escaped
exception) together with the diagnostics captured along the way. -/
def fixup (left_op : PyVal) (op : Op) (right_op : PyVal) :
    Except PyErr PyVal × List Diag :=
  if left_op = .str DIV0 ∨ right_op = .str DIV0 then (.ok (.str DIV0), [])
  else if left_op = .str VALUE_ERROR ∨ right_op = .str VALUE_ERROR then
    (.ok (.str VALUE_ERROR), [])
  else
    let l1 := if isBlank left_op then blank_subst right_op else left_op
    let r1 := if isBlank right_op then blank_subst l1 else right_op
    fixup_dispatch l1 op r1

/-! ## Address parsing: generic helpers -/

/-- Split a list at the first occurrence of `c`: `(before, some after)` when
`c` occurs, `(whole, none)` otherwise (Python `split(c, maxsplit=1)`). -/
def breakAtFirst (c : Char) : List Char → List Char × Option (List Char)
  | [] => ([], Option.none)
  | x :: xs =>
    if x = c then ([], some xs)
    else
      match breakAtFirst c xs with
      | (a, b) => (x :: a, b)

/-- The ASCII apostrophe character used to quote sheet names. -/
def quoteC : Char := Char.ofNat 39

/-- Boundary tuple: four nullable integers
`(min_col, min_row, max_col, max_row)`. -/
abbrev B4 := Option ℤ × Option ℤ × Option ℤ × Option ℤ

/-- Are all four components of a boundary tuple present? -/
def b4Full (t : B4) : Bool :=
  t.1.isSome && t.2.1.isSome && t.2.2.1.isSome && t.2.2.2.isSome

/-- Modelled from the spec: the absolute boundary parser collaborator
(`openpyxl.utils.range_boundaries`), which this repository imports rather
than defines.  One coordinate part: an optional `$`, up to three capital
letters, an optional `$`, then digits; letters and digits each optional.
Returns `none` when the part does not have this shape. -/
def parseCoordPart (cs : List Char) : Option (Option ℕ × Option ℕ) :=
  let cs1 := match cs with | '$' :: r => r | r => r
  let ls := cs1.takeWhile isUpperAZ
  let cs2 := cs1.dropWhile isUpperAZ
  if 3 < ls.length then Option.none
  else
    let cs3 := match cs2 with | '$' :: r => r | r => r
    let ds := cs3.takeWhile Char.isDigit
    let cs4 := cs3.dropWhile Char.isDigit
    if cs4 = [] then
      some ((if ls = [] then Option.none else some (lettersVal ls)),
            (if ds = [] then Option.none else some (digitsVal ds)))
    else Option.none

/-- Modelled from the spec: the absolute boundary parser collaborator
(`openpyxl.utils.range_boundaries`): a coordinate part, optionally followed
by `:` and a second part; missing letters/digits give null entries; with no
`:` the max entries copy the min entries; a raised `ValueError` reports a
string that fits neither shape. -/
def openpyxl_range_boundaries (s : String) : Except PyErr B4 :=
  match breakAtFirst ':' s.data with
  | (p1, Option.none) =>
    match parseCoordPart p1 with
    | some (c, r) =>
      .ok (c.map Int.ofNat, r.map Int.ofNat, c.map Int.ofNat, r.map Int.ofNat)
    | Option.none => .error (.valueError (s ++ " is not a valid coordinate or range"))
  | (p1, some p2) =>
    match parseCoordPart p1, parseCoordPart p2 with
    | some (c1, r1), some (c2, r2) =>
      .ok (c1.map Int.ofNat, r1.map Int.ofNat, c2.map Int.ofNat, r2.map Int.ofNat)
    | _, _ => .error (.valueError (s ++ " is not a valid coordinate or range"))

/-- Modelled from the spec: the column-letter conversion collaborator
(`openpyxl.utils.get_column_letter`), base-26 with no zero digit, valid for
indices 1 to 18278 (`ZZZ`), raising `ValueError` outside that range. -/
def get_column_letter (n : ℤ) : Except PyErr String :=
  if 1 ≤ n ∧ n ≤ 18278 then .ok ⟨colLetters n.toNat⟩
  else .error (.valueError "Invalid column index")

/-! ## Sheet-name handling -/

/-- Collapse each doubled quote to a single quote (Python
`str.replace` used by `unquote_sheetname`). -/
def unDoubleQuote : List Char → List Char
  | [] => []
  | [a] => [a]
  | a :: b :: rest =>
    if a = quoteC ∧ b = quoteC then quoteC :: unDoubleQuote rest
    else a :: unDoubleQuote (b :: rest)

/-- `unquote_sheetname`: strip surrounding quotes and unescape doubled
quotes in a quoted sheet name. -/
def unquote_sheetname (cs : List Char) : List Char :=
  if cs.head? = some quoteC ∧ cs.getLast? = some quoteC then
    unDoubleQuote (cs.drop 1).dropLast
  else cs

/-- `split_sheetname(address, sheet)`: split a leading `Sheet!` prefix off,
unquote it, and reject a conflict with a non-blank `sheet` argument or a
second `!` in the remainder. -/
def split_sheetname (address : String) (sheet : String) :
    Except PyErr (String × String) :=
  match breakAtFirst '!' address.data with
  | (_, Option.none) => .ok (sheet, address)
  | (shRaw, some rest) =>
    if rest.contains '!' then
      .error (.assertionError ("Only rectangular formulas are supported " ++ address))
    else
      let sh : String := ⟨unquote_sheetname shRaw⟩
      if sh ≠ "" ∧ sheet ≠ "" ∧ sh ≠ sheet then
        .error (.valueError ("Mismatched sheets " ++ sh ++ " and " ++ sheet))
      else .ok ((if sheet ≠ "" then sheet else sh), ⟨rest⟩)

/-! ## Collaborator contexts -/

/-- Modelled from the spec: one record of the read-only Table Metadata
collaborator: boundary reference string, header-row count, totals-row
count, and the ordered column names.  (Python's nullable counts are
truthiness-defaulted to 0 by the code, so plain `ℕ` is equivalent.) -/
structure TableRec where
  ref : String
  headerRowCount : ℕ
  totalsRowCount : ℕ
  tableColumns : List String

/-- Modelled from the spec: the workbook collaborator reached through
`cell.excel`: the Table Metadata provider and the Named-Range provider. -/
structure ExcelCtx where
  table : String → Option String → Option TableRec × Option String
  defined_names : String → Option (String × Option String)

/-- The anchor cell passed to the resolver: its own row/column indices and
the workbook accessor.  (In pycel `cell.address.row` equals `cell.row`;
both are modelled by `row`.) -/
structure CellCtx where
  row : ℤ
  col_idx : ℤ
  excel : ExcelCtx

/-! ## Structured (table) references -/

/-- `TABLE_REF_RE`: `TableName[selector]` — a nonempty name without `[`,
then `[`, then the selector (everything up to the final char, which must
be `]`). -/
def tableRefSplit (cs : List Char) : Option (List Char × List Char) :=
  match breakAtFirst '[' cs with
  | (_, Option.none) => Option.none
  | (name, some rest) =>
    if name = [] then Option.none
    else if rest.getLast? = some ']' then some (name, rest.dropLast)
    else Option.none

/-- The three alternatives of `TABLE_SELECTOR_RE`, with their named groups.  -/
inductive SelGroups where
  | rowOrColumn (s : List Char)
  | thisRow (s : List Char)
  | general (rows : List (List Char)) (startCol endCol : Option (List Char))

/-- One `\[([^\]]+)\] *, *` rows group of the third `TABLE_SELECTOR_RE`
alternative: bracketed nonempty content, spaces, a comma, spaces. -/
def tryRowGroup (cs : List Char) : Option (List Char × List Char) :=
  match cs with
  | '[' :: u =>
    let content := u.takeWhile (· ≠ ']')
    if content = [] then Option.none
    else
      match u.dropWhile (· ≠ ']') with
      | ']' :: u3 =>
        match u3.dropWhile (· = ' ') with
        | ',' :: u5 => some (content, u5.dropWhile (· = ' '))
        | _ => Option.none
      | _ => Option.none
  | _ => Option.none

/-- Greedily match rows groups (fuel-structural; each group consumes at
least one character, so `fuel = length` suffices). -/
def rowGroupsLoop : ℕ → List Char → List (List Char) × List Char
  | 0, cs => ([], cs)
  | fuel + 1, cs =>
    match tryRowGroup cs with
    | some (content, rest) =>
      match rowGroupsLoop fuel rest with
      | (gs, rest2) => (content :: gs, rest2)
    | Option.none => ([], cs)

/-- The optional `\[([^\]]+)\] *: *` start-column group. -/
def tryStartCol (cs : List Char) : Option (List Char) × List Char :=
  match cs with
  | '[' :: u =>
    let content := u.takeWhile (· ≠ ']')
    if content = [] then (Option.none, cs)
    else
      match u.dropWhile (· ≠ ']') with
      | ']' :: u3 =>
        match u3.dropWhile (· = ' ') with
        | ':' :: u5 => (some content, u5.dropWhile (· = ' '))
        | _ => (Option.none, cs)
      | _ => (Option.none, cs)
  | _ => (Option.none, cs)

/-- The optional `\[(.+)\] *` end-column group: bracketed nonempty content
running to the last `]`, with only spaces allowed afterwards. -/
def tryEndCol (cs : List Char) : Option (List Char) × List Char :=
  match cs with
  | '[' :: u =>
    match u.reverse.dropWhile (· = ' ') with
    | ']' :: revContent =>
      if revContent = [] then (Option.none, cs) else (some revContent.reverse, [])
    | _ => (Option.none, cs)
  | _ => (Option.none, cs)

/-- The third `TABLE_SELECTOR_RE` alternative: leading spaces, rows groups,
an optional start column, an optional end column.  (The rows-group loop is
greedy without global backtracking; degenerate selectors that the regex
engine would only match via backtracking, such as `[a],]`, are rejected
instead of matched — no verified property depends on them.) -/
def selGeneral (cs : List Char) : Option SelGroups :=
  let t0 := cs.dropWhile (· = ' ')
  match rowGroupsLoop t0.length t0 with
  | (gs, t1) =>
    match tryStartCol t1 with
    | (sc, t2) =>
      match tryEndCol t2 with
      | (ec, t3) => if t3 = [] then some (.general gs sc ec) else Option.none

/-- `TABLE_SELECTOR_RE`: the three alternatives in order — a selector with
no `[` at all; the `@[Name]` this-row form; the general bracketed form. -/
def selectorMatch (cs : List Char) : Option SelGroups :=
  if cs ≠ [] ∧ ¬ cs.contains '[' then some (.rowOrColumn cs)
  else
    match cs with
    | '@' :: '[' :: body =>
      if body.getLast? = some ']' ∧ ¬ body.dropLast.contains '[' then
        some (.thisRow body.dropLast)
      else selGeneral cs
    | _ => selGeneral cs

/-- Selector-group post-processing of `structured_reference_boundaries`
(lines 343–389): choose the matched alternative (with Python truthiness on
the groups), reject multiple rows groups, then apply the `#`-keyword and
`@` this-row fix-ups to `end_col`.  Returns `(rows, start_col, end_col)`. -/
def selParse (address : String) (selCs : List Char) :
    Except PyErr (Option (List Char) × Option (List Char) × Option (List Char)) :=
  if selCs = [] then .ok (Option.none, Option.none, Option.none)
  else
    match selectorMatch selCs with
    | Option.none =>
      .error (.pycelException
        ("Unknown Structured Reference Selector: " ++ (⟨selCs⟩ : String)))
    | some g =>
      let triple : Except PyErr
          (Option (List Char) × Option (List Char) × Option (List Char)) :=
        match g with
        | .rowOrColumn s => .ok (Option.none, Option.none, some s)
        | .thisRow s =>
          if s ≠ [] then .ok (some "#This Row".data, Option.none, some s)
          else .ok (Option.none, Option.none, Option.none)
        | .general gs sc ec =>
          if gs = [] then .ok (Option.none, sc, ec)
          else if gs.length = 1 then .ok (some (gs.headD []), sc, ec)
          else .error (.pycelException ("Unknown Structured Reference Rows: " ++ address))
      match triple with
      | .error e => .error e
      | .ok (rows, sc, ec) =>
        match ec with
        | Option.none => .error .attributeError
        | some e =>
          if e.head? = some '#' then
            if rows = Option.none ∧ sc = Option.none then .ok (some e, sc, Option.none)
            else .ok (rows, sc, some e)
          else if e.head? = some '@' then
            let e1 := e.drop 1
            .ok (some "#This Row".data, sc, if e1 = [] then sc else some e1)
          else .ok (rows, sc, some e)

/-- Row-keyword resolution of `structured_reference_boundaries`
(lines 391–418): map the rows selector onto the table's boundary rows
using the header-row and totals-row counts. -/
def rowSpan (rows : Option (List Char)) (table : TableRec) (c : CellCtx)
    (b1 b3 : ℤ) : Except PyErr (ℤ × ℤ) :=
  match rows with
  | Option.none => .ok (b1 + table.headerRowCount, b3 - table.totalsRowCount)
  | some rs =>
    if rs = "#All".data then .ok (b1, b3)
    else if rs = "#Data".data then
      .ok (b1 + table.headerRowCount, b3 - table.totalsRowCount)
    else if rs = "#Headers".data then .ok (b1, b1 + table.headerRowCount - 1)
    else if rs = "#Totals".data then .ok (b3 - table.totalsRowCount + 1, b3)
    else if rs = "#This Row".data then .ok (c.row, c.row)
    else .error (.pycelException ("Unknown Structured Reference Rows: " ++ (⟨rs⟩ : String)))

/-- Column resolution of `structured_reference_boundaries` (lines 420–444):
look the start/end column names up in the table's ordered column list
(case-sensitively). -/
def colSpan (address : String) (table : TableRec) (b0 b2 : ℤ)
    (startCol endCol : Option (List Char)) : Except PyErr (ℤ × ℤ) :=
  match endCol with
  | Option.none => .ok (b0, b2)
  | some ec =>
    match List.findIdx? (fun n => n = (⟨ec⟩ : String)) table.tableColumns with
    | Option.none =>
      .error (.pycelException
        ("Column " ++ (⟨ec⟩ : String) ++ " not found for Structured Reference: " ++ address))
    | some idx =>
      let maxCol := b0 + idx
      match startCol with
      | Option.none => .ok (maxCol, maxCol)
      | some sc =>
        match List.findIdx? (fun n => n = (⟨sc⟩ : String)) table.tableColumns with
        | Option.none =>
          .error (.pycelException
            ("Column " ++ (⟨sc⟩ : String) ++ " not found for Structured Reference: " ++ address))
        | some idx2 => .ok (b0 + idx2, maxCol)

/-- `structured_reference_boundaries(address, cell, sheet)`: `ok none` when
the address is not `Name[selector]`-shaped; a raised `PyCelException` when
no anchor cell was passed; otherwise table lookup (the duplicated pure
`cell.excel.table` call of lines 325–326 is modelled once), boundary
parsing of `table.ref`, selector resolution, and the out-of-order check. -/
def structured_reference_boundaries (address : String) (cell : Option CellCtx)
    (sheet : Option String) :
    Except PyErr (Option ((ℤ × ℤ × ℤ × ℤ) × Option String)) :=
  match tableRefSplit address.data with
  | Option.none => .ok Option.none
  | some (nameCs, selCs) =>
    match cell with
    | Option.none =>
      .error (.pycelException ("Must pass cell for Structured Reference " ++ address))
    | some c =>
      match c.excel.table ⟨nameCs⟩ sheet with
      | (Option.none, _) =>
        .error (.pycelException
          ("Table " ++ (⟨nameCs⟩ : String) ++ " not found for Structured Reference: " ++ address))
      | (some table, sheet2) =>
        match openpyxl_range_boundaries table.ref with
        | .error e => .error e
        | .ok (some b0, some b1, some b2, some b3) =>
          match selParse address selCs with
          | .error e => .error e
          | .ok (rows, startCol, endCol) =>
            match rowSpan rows table c b1 b3 with
            | .error e => .error e
            | .ok (minRow, maxRow) =>
              match colSpan address table b0 b2 startCol endCol with
              | .error e => .error e
              | .ok (minCol, maxCol) =>
                if minRow > maxRow ∨ minCol > maxCol then
                  .error (.pycelException ("Columns out of order : " ++ address))
                else .ok (some ((minCol, minRow, maxCol, maxRow), sheet2))
        | .ok _ => .error (.assertionError "None in boundaries")

/-! ## Row-column (R1C1) references -/

/-- One optional `R(\[-?\d+\]|\d+)?` / `C(...)?` component of
`R1C1_RANGE_RE`: returns the raw matched component (if present) and the
rest of the input.  The regex alternation is deterministic: a bracketed
body is preferred, bare digits next, a bare letter last. -/
def matchComp (lead : Char) (cs : List Char) : Option (List Char) × List Char :=
  match cs with
  | [] => (Option.none, [])
  | c :: rest =>
    if c = lead then
      match rest with
      | '[' :: t =>
        let (sgn, t1) : List Char × List Char :=
          match t with
          | '-' :: t2 => (['-'], t2)
          | _ => ([], t)
        let ds := t1.takeWhile Char.isDigit
        if ds ≠ [] then
          match t1.dropWhile Char.isDigit with
          | ']' :: t3 => (some (c :: '[' :: (sgn ++ ds ++ [']'])), t3)
          | _ => (some [c], rest)
        else (some [c], rest)
      | _ =>
        let ds := rest.takeWhile Char.isDigit
        if ds = [] then (some [c], rest)
        else (some (c :: ds), rest.dropWhile Char.isDigit)
    else (Option.none, cs)

/-- `R1C1_RANGE_RE`: `(min_row)?(min_col)?(:(max_row)?(max_col)?)?` over the
whole string, returning the four raw component groups. -/
def r1c1Match (cs : List Char) :
    Option (Option (List Char) × Option (List Char) ×
            Option (List Char) × Option (List Char)) :=
  match matchComp 'R' cs with
  | (minRow, cs1) =>
    match matchComp 'C' cs1 with
    | (minCol, cs2) =>
      match cs2 with
      | [] => some (minRow, minCol, Option.none, Option.none)
      | ':' :: cs3 =>
        match matchComp 'R' cs3 with
        | (maxRow, cs4) =>
          match matchComp 'C' cs4 with
          | (maxCol, cs5) =>
            if cs5 = [] then some (minRow, minCol, maxRow, maxCol) else Option.none
      | _ => Option.none

/-- `from_relative_to_absolute(r1_or_c1)` inside `range_boundaries`:
absolute components `R<n>`/`C<n>` parse their digits; bare `R`/`C` return
the anchor's own row/column (requiring an anchor); bracketed relative
components require an anchor and compute
`(anchor + delta - 1) % MAX + 1`. -/
def from_relative_to_absolute (cell : Option CellCtx) (address : String)
    (cs : List Char) : Except PyErr ℤ :=
  if cs.getLast? ≠ some ']' then
    if 1 < cs.length then
      match pyParseInt (cs.drop 1) with
      | some i => .ok i
      | Option.none => .error (.valueError "invalid literal for int")
    else
      match cell with
      | Option.none =>
        .error (.assertionError ("Must pass a cell to decode a relative address " ++ address))
      | some c =>
        match cs.head? with
        | some ch => if asciiUpperChar ch = 'R' then .ok c.row else .ok c.col_idx
        | Option.none => .error .indexError
  else
    match cell with
    | Option.none =>
      .error (.assertionError ("Must pass a cell to decode a relative address " ++ address))
    | some c =>
      match pyParseInt (cs.drop 2).dropLast with
      | some d =>
        match cs.head? with
        | some ch =>
          if asciiLowerChar ch = 'r' then .ok (Int.emod (c.row + d - 1) MAX_ROW + 1)
          else .ok (Int.emod (c.col_idx + d - 1) MAX_COL + 1)
        | Option.none => .error .indexError
      | Option.none => .error (.valueError "invalid literal for int")

/-- Apply `from_relative_to_absolute` to an optional matched group. -/
def applyFrta (cell : Option CellCtx) (address : String)
    (g : Option (List Char)) : Except PyErr (Option ℤ) :=
  match g with
  | Option.none => .ok Option.none
  | some raw => (from_relative_to_absolute cell address raw).map some

/-- `VALID_R1C1_RANGE_ITEM_COMBOS` as presence flags
`(min_col?, min_row?, max_col?, max_row?)`. -/
def VALID_R1C1_RANGE_ITEM_COMBOS : List (Bool × Bool × Bool × Bool) :=
  [(false, true, false, true), (true, false, true, false), (true, true, true, true)]

/-- `range_boundaries(address, cell, sheet)`: try the absolute parser
(accept when complete or when the string contains `:`), then the R1C1
grammar (with presence-pattern validation and min-to-max defaulting), then
structured references, then defined names; otherwise raise `ValueError`.
(The no-op `if min_col is not None: min_col = min_col` statements of
lines 542–546 are omitted.) -/
def range_boundaries (address : String) (cell : Option CellCtx)
    (sheet : Option String) : Except PyErr (B4 × Option String) :=
  let tryRest : Except PyErr (B4 × Option String) :=
    match r1c1Match address.data with
    | Option.none =>
      match structured_reference_boundaries address cell sheet with
      | .error e => .error e
      | .ok (some (b, sh)) =>
        .ok ((some b.1, some b.2.1, some b.2.2.1, some b.2.2.2), sh)
      | .ok Option.none =>
        match cell with
        | some c =>
          match c.excel.defined_names address with
          | some (nameStr, nameSheet) =>
            match openpyxl_range_boundaries nameStr with
            | .error e => .error e
            | .ok b => .ok (b, nameSheet)
          | Option.none =>
            .error (.valueError (address ++ " is not a valid coordinate or range"))
        | Option.none =>
          .error (.valueError (address ++ " is not a valid coordinate or range"))
    | some (minRowG, minColG, maxRowG, maxColG) =>
      match applyFrta cell address minColG with
      | .error e => .error e
      | .ok minCol =>
        match applyFrta cell address minRowG with
        | .error e => .error e
        | .ok minRow =>
          match applyFrta cell address maxColG with
          | .error e => .error e
          | .ok maxCol =>
            match applyFrta cell address maxRowG with
            | .error e => .error e
            | .ok maxRow =>
              let itemsPresent :=
                (minCol.isSome, minRow.isSome, maxCol.isSome, maxRow.isSome)
              let presentCount :=
                (if minCol.isSome then 1 else 0) + (if minRow.isSome then 1 else 0) +
                (if maxCol.isSome then 1 else 0) + (if maxRow.isSome then 1 else 0)
              let isRange := address.data.contains ':'
              if (isRange ∧ ¬ VALID_R1C1_RANGE_ITEM_COMBOS.contains itemsPresent) ∨
                  (¬ isRange ∧ presentCount < 2) then
                .error (.valueError (address ++ " is not a valid coordinate or range"))
              else
                .ok ((minCol, minRow,
                      (if maxCol.isSome then maxCol else minCol),
                      (if maxRow.isSome then maxRow else minRow)), sheet)
  match openpyxl_range_boundaries address with
  | .ok b => if b4Full b ∨ address.data.contains ':' then .ok (b, sheet) else tryRest
  | .error _ => tryRest

/-! ## The canonical coordinate values -/

/-- The `AddressCell` named tuple: full address, sheet, 1-based column and
row indices (0 = unspecified), and the sheet-less coordinate. -/
structure AddressCell where
  address : String
  sheet : Option String
  col_idx : ℤ
  row : ℤ
  coordinate : String
deriving DecidableEq

/-- The `AddressRange` named tuple: full address, sheet, start and end
cells, and the sheet-less `start:end` coordinate. -/
structure AddressRange where
  address : String
  sheet : Option String
  start : AddressCell
  end_ : AddressCell
  coordinate : String
deriving DecidableEq

/-- Result of `AddressRange.create`: a cell or a range. -/
inductive Address where
  | cell (a : AddressCell)
  | range (r : AddressRange)
deriving DecidableEq

/-- The full address string of either kind of value. -/
def Address.addr : Address → String
  | .cell a => a.address
  | .range r => r.address

/-- Python truthiness of the sheet value (`''` and `None` are both falsy). -/
def sheetTruthy : Option String → Bool
  | Option.none => false
  | some s => decide (s ≠ "")

/-- `'{0}!{1}'.format(sheet, coordinate) if sheet else coordinate`. -/
def formatAddr (sheet : Option String) (coord : List Char) : String :=
  if sheetTruthy sheet then ⟨(sheet.getD "").data ++ '!' :: coord⟩ else ⟨coord⟩

/-- Python `a or 0` on a nullable integer. -/
def truthyOr0 : Option ℤ → ℤ
  | Option.none => 0
  | some v => v

/-- The boundary-tuple branch of `AddressCell.__new__`: assert that the
tuple is a cell, default null entries to 0, compute the column letters
(empty for column 0), the coordinate, and the formatted address. -/
def addressCellOfTuple (t : B4) (sheet : Option String) : Except PyErr AddressCell :=
  match t with
  | (c0, r0, c2, r2) =>
    if ¬ ((c0.isSome ∧ r0.isSome ∧ c2.isSome ∧ r2.isSome) ∨ (c0 = c2 ∧ r0 = r2)) then
      .error (.assertionError "AddressCell expected a cell")
    else
      let colIdx := truthyOr0 c0
      let row := truthyOr0 r0
      match (if colIdx = 0 then .ok "" else get_column_letter colIdx :
              Except PyErr String) with
      | .error e => .error e
      | .ok column =>
        let coordinate := column.data ++ (if row = 0 then [] else intDigits row)
        .ok ⟨formatAddr sheet coordinate, sheet, colIdx, row, ⟨coordinate⟩⟩

/-- The boundary-tuple branch of `AddressRange.__new__`: assert that the
tuple is a range, build the two corner cells, and join their coordinates
with `:`. -/
def addressRangeOfTuple (t : B4) (sheet : Option String) : Except PyErr AddressRange :=
  match t with
  | (c0, r0, c2, r2) =>
    if ¬ ((¬ c0.isSome ∨ ¬ r0.isSome ∨ ¬ c2.isSome ∨ ¬ r2.isSome) ∨
          ¬ (c0 = c2 ∧ r0 = r2)) then
      .error (.assertionError "AddressRange expected a range")
    else
      match addressCellOfTuple (c0, r0, c0, r0) sheet with
      | .error e => .error e
      | .ok startC =>
        match addressCellOfTuple (c2, r2, c2, r2) sheet with
        | .error e => .error e
        | .ok endC =>
          let coordinate := startC.coordinate.data ++ ':' :: endC.coordinate.data
          .ok ⟨formatAddr sheet coordinate, sheet, startC, endC, ⟨coordinate⟩⟩

/-- `AddressRange.create(address, sheet, cell)` on a raw string: split the
sheet name off, resolve the boundaries, and build a cell when the tuple is
complete with equal corners, a range otherwise.  (The pass-through
branches for already-typed values do not apply to string input.) -/
def AddressRange.create (address : String) (sheet : String)
    (cell : Option CellCtx) : Except PyErr Address :=
  match split_sheetname address sheet with
  | .error e => .error e
  | .ok (sheetname, addr) =>
    match range_boundaries addr cell (some sheetname) with
    | .error e => .error e
    | .ok (t, sheetname2) =>
      if (¬ t.1.isSome ∨ ¬ t.2.1.isSome ∨ ¬ t.2.2.1.isSome ∨ ¬ t.2.2.2.isSome) ∨
          ¬ (t.1 = t.2.2.1 ∧ t.2.1 = t.2.2.2) then
        (addressRangeOfTuple t sheetname2).map .range
      else (addressCellOfTuple t sheetname2).map .cell

/-- `AddressCell.create(address, sheet, cell)`: delegate to
`AddressRange.create` and raise `ValueError` unless the result is a single
cell. -/
def AddressCell.create (address : String) (sheet : String)
    (cell : Option CellCtx) : Except PyErr Address :=
  match AddressRange.create address sheet cell with
  | .ok (.range _) => .error (.valueError (address ++ " is not a valid coordinate"))
  | other => other

/-! ## Canonical address strings (for the round-trip statement) -/

/-- The canonical sheet-less coordinate of a cell: column letters then the
row number. -/
def mkCellCoord (c r : ℕ) : List Char := colLetters c ++ natDigits r

/-- The optional `Sheet!` prefix of a canonical address string. -/
def sheetPrefix (sheet : String) : List Char :=
  if sheet = "" then [] else sheet.data ++ ['!']

/-- A canonical single-cell address string, e.g. `S!B2` or `B2`. -/
def mkCellAddrStr (sheet : String) (c r : ℕ) : String :=
  ⟨sheetPrefix sheet ++ mkCellCoord c r⟩

/-- A canonical range address string, e.g. `S!A1:B2` or `A1:B2`. -/
def mkRangeAddrStr (sheet : String) (c1 r1 c2 r2 : ℕ) : String :=
  ⟨sheetPrefix sheet ++ mkCellCoord c1 r1 ++ ':' :: mkCellCoord c2 r2⟩

/-- A sheet name usable unquoted in a canonical address: no `!` and not
wrapped in quotes. -/
def validSheetStr (sheet : String) : Prop :=
  ¬ sheet.data.contains '!' = true ∧
    ¬ (sheet.data.head? = some quoteC ∧ sheet.data.getLast? = some quoteC)

/-! ## Concrete fixtures for witnesses -/

/-- A concrete workbook context: one table `T` spanning `A1:C10` with one
header row, one totals row and three columns, and no defined names. -/
def witnessExcel : ExcelCtx :=
  { table := fun n sh =>
      if n = "T" then
        (some { ref := "A1:C10", headerRowCount := 1, totalsRowCount := 1,
                tableColumns := ["Col1", "Col2", "Col3"] }, sh)
      else (Option.none, sh),
    defined_names := fun _ => Option.none }

/-- A concrete anchor cell at row 5, column 3. -/
def witnessCell : CellCtx := { row := 5, col_idx := 3, excel := witnessExcel }

/-! ## Digit- and letter-string lemmas -/

theorem digitVal_digitChar : ∀ d, d < 10 → digitVal (digitChar d) = d := by decide

theorem digitsVal_concat (cs : List Char) (c : Char) :
    digitsVal (cs ++ [c]) = digitsVal cs * 10 + digitVal c := by
  simp [digitsVal, List.foldl_append]

theorem natDigitsF_zero (fuel : ℕ) : natDigitsF fuel 0 = [] := by
  cases fuel <;> simp [natDigitsF]

theorem natDigitsF_shape (fuel n : ℕ) (h : n ≤ fuel) :
    ∀ a ∈ natDigitsF fuel n, ∃ d, d < 10 ∧ a = digitChar d := by
  induction fuel generalizing n with
  | zero => simp [natDigitsF]
  | succ fuel ih =>
    by_cases h0 : n = 0
    · simp [natDigitsF, h0]
    · simp only [natDigitsF, h0, if_false, List.mem_append, List.mem_singleton]
      intro a ha
      rcases ha with ha | ha
      · exact ih (n / 10) (by omega) a ha
      · exact ⟨n % 10, by omega, ha⟩

theorem digitsVal_natDigitsF (fuel n : ℕ) (h : n ≤ fuel) :
    digitsVal (natDigitsF fuel n) = n := by
  induction fuel generalizing n with
  | zero =>
    have hz : n = 0 := by omega
    subst hz
    rfl
  | succ fuel ih =>
    by_cases h0 : n = 0
    · simp [natDigitsF, h0, digitsVal]
    · have hdiv : n / 10 ≤ fuel := by omega
      simp only [natDigitsF, h0, if_false, digitsVal_concat, ih (n / 10) hdiv,
        digitVal_digitChar (n % 10) (by omega)]
      omega

theorem natDigits_shape (n : ℕ) :
    ∀ a ∈ natDigits n, ∃ d, d < 10 ∧ a = digitChar d := by
  by_cases h0 : n = 0
  · simp [natDigits, h0]; exact ⟨0, by decide, rfl⟩
  · simpa [natDigits, h0] using natDigitsF_shape n n le_rfl

theorem digitsVal_natDigits (n : ℕ) : digitsVal (natDigits n) = n := by
  by_cases h0 : n = 0
  · simp [natDigits, h0, digitsVal, digitVal]
  · simpa [natDigits, h0] using digitsVal_natDigitsF n n le_rfl

theorem natDigits_ne_nil (n : ℕ) : natDigits n ≠ [] := by
  by_cases h0 : n = 0
  · simp [natDigits, h0]
  · simp only [natDigits, h0, if_false]
    cases hn : natDigitsF n n with
    | nil =>
      exfalso
      have h2 := digitsVal_natDigitsF n n le_rfl
      rw [hn] at h2
      have h3 : digitsVal ([] : List Char) = 0 := rfl
      omega
    | cons a l => simp

theorem letterVal_letterChar : ∀ k, k < 26 → letterVal (letterChar k) = k := by decide

theorem lettersVal_concat (cs : List Char) (c : Char) :
    lettersVal (cs ++ [c]) = lettersVal cs * 26 + (letterVal c + 1) := by
  simp [lettersVal, List.foldl_append]

theorem colLettersF_shape (fuel n : ℕ) (h : n ≤ fuel) :
    ∀ a ∈ colLettersF fuel n, ∃ k, k < 26 ∧ a = letterChar k := by
  induction fuel generalizing n with
  | zero => simp [colLettersF]
  | succ fuel ih =>
    by_cases h0 : n = 0
    · simp [colLettersF, h0]
    · simp only [colLettersF, h0, if_false, List.mem_append, List.mem_singleton]
      intro a ha
      rcases ha with ha | ha
      · exact ih ((n - 1) / 26) (by omega) a ha
      · exact ⟨(n - 1) % 26, by omega, ha⟩

theorem lettersVal_colLettersF (fuel n : ℕ) (h : n ≤ fuel) :
    lettersVal (colLettersF fuel n) = n := by
  induction fuel generalizing n with
  | zero =>
    have hz : n = 0 := by omega
    subst hz
    rfl
  | succ fuel ih =>
    by_cases h0 : n = 0
    · simp [colLettersF, h0, lettersVal]
    · have hdiv : (n - 1) / 26 ≤ fuel := by omega
      simp only [colLettersF, h0, if_false, lettersVal_concat,
        ih ((n - 1) / 26) hdiv, letterVal_letterChar ((n - 1) % 26) (by omega)]
      omega

theorem lettersVal_colLetters (n : ℕ) : lettersVal (colLetters n) = n :=
  lettersVal_colLettersF n n le_rfl

theorem colLetters_shape (n : ℕ) :
    ∀ a ∈ colLetters n, ∃ k, k < 26 ∧ a = letterChar k :=
  colLettersF_shape n n le_rfl

theorem colLetters_ne_nil (n : ℕ) (h : n ≠ 0) : colLetters n ≠ [] := by
  unfold colLetters
  cases hn : colLettersF n n with
  | nil =>
    exfalso
    have h2 := lettersVal_colLettersF n n le_rfl
    rw [hn] at h2
    have h3 : lettersVal ([] : List Char) = 0 := rfl
    omega
  | cons a l => simp

/-- `colCap k` is the largest column index whose letters fit in `k`
characters: `26 + 26² + ⋯ + 26^k`. -/
def colCap : ℕ → ℕ
  | 0 => 0
  | k + 1 => 26 * (colCap k + 1)

theorem colLettersF_length_le (fuel : ℕ) :
    ∀ k n, n ≤ fuel → n ≤ colCap k → (colLettersF fuel n).length ≤ k := by
  induction fuel with
  | zero => intro k n h _; interval_cases n; simp [colLettersF]
  | succ fuel ih =>
    intro k n h hb
    by_cases h0 : n = 0
    · simp [colLettersF, h0]
    · cases k with
      | zero => simp [colCap] at hb; omega
      | succ k =>
        have hlt : (n - 1) / 26 < colCap k + 1 := by
          rw [Nat.div_lt_iff_lt_mul (by norm_num)]
          simp only [colCap] at hb
          omega
        simp only [colLettersF, h0, if_false, List.length_append, List.length_singleton]
        have := ih k ((n - 1) / 26) (by omega) (by omega)
        omega

theorem colLetters_length_le_three (n : ℕ) (h : n ≤ 18278) :
    (colLetters n).length ≤ 3 := by
  have hc : colCap 3 = 18278 := by simp [colCap]
  exact colLettersF_length_le n 3 n le_rfl (by omega)

/-! ## List-parsing lemmas -/

theorem takeWhile_append_eq (p : Char → Bool) :
    ∀ (xs ys : List Char), (∀ a ∈ xs, p a = true) →
      (∀ y, ys.head? = some y → p y = false) →
      (xs ++ ys).takeWhile p = xs := by
  intro xs ys hxs hys
  induction xs with
  | nil =>
    cases ys with
    | nil => rfl
    | cons y t => simp [List.takeWhile, hys y rfl]
  | cons a l ih =>
    have ha : p a = true := hxs a (by simp)
    simp only [List.cons_append, List.takeWhile_cons, ha, if_true]
    rw [ih (fun b hb => hxs b (by simp [hb]))]

theorem dropWhile_append_eq (p : Char → Bool) :
    ∀ (xs ys : List Char), (∀ a ∈ xs, p a = true) →
      (∀ y, ys.head? = some y → p y = false) →
      (xs ++ ys).dropWhile p = ys := by
  intro xs ys hxs hys
  induction xs with
  | nil =>
    cases ys with
    | nil => rfl
    | cons y t => simp [List.dropWhile, hys y rfl]
  | cons a l ih =>
    have ha : p a = true := hxs a (by simp)
    simp only [List.cons_append, List.dropWhile_cons, ha, if_true]
    exact ih (fun b hb => hxs b (by simp [hb]))

theorem dropWhile_eq_self_of_all (p : Char → Bool) (l : List Char)
    (h : ∀ a ∈ l, p a = false) : l.dropWhile p = l := by
  cases l with
  | nil => rfl
  | cons a t => simp [List.dropWhile_cons, h a (by simp)]

theorem takeWhile_eq_self_of_all (p : Char → Bool) :
    ∀ (l : List Char), (∀ a ∈ l, p a = true) → l.takeWhile p = l := by
  intro l h
  induction l with
  | nil => rfl
  | cons a t ih =>
    simp only [List.takeWhile_cons, h a (by simp), if_true]
    rw [ih (fun b hb => h b (by simp [hb]))]

theorem breakAtFirst_not_mem (c : Char) (xs : List Char) (h : ¬ xs.contains c) :
    breakAtFirst c xs = (xs, Option.none) := by
  induction xs with
  | nil => rfl
  | cons a l ih =>
    simp only [List.contains_cons, Bool.or_eq_true, not_or] at h
    have ha : ¬ a = c := fun hh => h.1 (by simp [hh])
    have ihh := ih (by simpa using h.2)
    simp only [breakAtFirst, if_neg ha, List.append_eq, ihh]

theorem breakAtFirst_append (c : Char) (xs ys : List Char) (h : ¬ xs.contains c) :
    breakAtFirst c (xs ++ c :: ys) = (xs, some ys) := by
  induction xs with
  | nil => simp [breakAtFirst]
  | cons a l ih =>
    simp only [List.contains_cons, Bool.or_eq_true, not_or] at h
    have ha : ¬ a = c := fun hh => h.1 (by simp [hh])
    have ihh := ih (by simpa using h.2)
    simp only [List.cons_append, breakAtFirst, if_neg ha, List.append_eq, ihh]

theorem trimWs_eq_self (l : List Char) (h : ∀ a ∈ l, a.isWhitespace = false) :
    trimWs l = l := by
  unfold trimWs
  rw [dropWhile_eq_self_of_all _ l h,
    dropWhile_eq_self_of_all _ l.reverse (fun a ha => h a (List.mem_reverse.1 ha)),
    List.reverse_reverse]

theorem dropWhile_eq_nil_of_all (p : Char → Bool) :
    ∀ (l : List Char), (∀ a ∈ l, p a = true) → l.dropWhile p = [] := by
  intro l h
  induction l with
  | nil => rfl
  | cons a t ih =>
    simp only [List.dropWhile_cons, h a (by simp), if_true]
    exact ih (fun b hb => h b (by simp [hb]))

/-! ## Character facts for the generated digit and letter characters -/

theorem digitChar_facts : ∀ d, d < 10 →
    (digitChar d).isWhitespace = false ∧ (digitChar d).isDigit = true ∧
    isUpperAZ (digitChar d) = false ∧ digitChar d ≠ '-' ∧ digitChar d ≠ '+' ∧
    digitChar d ≠ ':' ∧ digitChar d ≠ '!' ∧ digitChar d ≠ ']' ∧
    digitChar d ≠ '[' ∧ digitChar d ≠ '$' ∧ digitChar d ≠ quoteC := by decide

theorem letterChar_facts : ∀ k, k < 26 →
    isUpperAZ (letterChar k) = true ∧ (letterChar k).isDigit = false ∧
    (letterChar k).isWhitespace = false ∧ letterChar k ≠ ':' ∧
    letterChar k ≠ '!' ∧ letterChar k ≠ '$' ∧ letterChar k ≠ '[' ∧
    letterChar k ≠ ']' ∧ letterChar k ≠ quoteC ∧ letterChar k ≠ '-' ∧
    letterChar k ≠ '+' := by decide

/-! ## Integer-string parsing lemmas -/

theorem parseDigits_of_shape (cs : List Char) (hne : cs ≠ [])
    (hall : ∀ a ∈ cs, ∃ d, d < 10 ∧ a = digitChar d) :
    parseDigits cs = some (digitsVal cs) := by
  unfold parseDigits
  rw [if_pos]
  refine ⟨hne, ?_⟩
  rw [List.all_eq_true]
  intro a ha
  obtain ⟨d, hd, rfl⟩ := hall a ha
  exact (digitChar_facts d hd).2.1

theorem pyParseInt_of_shape (cs : List Char) (hne : cs ≠ [])
    (hall : ∀ a ∈ cs, ∃ d, d < 10 ∧ a = digitChar d) :
    pyParseInt cs = some ((digitsVal cs : ℕ) : ℤ) := by
  have hws : trimWs cs = cs := by
    refine trimWs_eq_self cs (fun a ha => ?_)
    obtain ⟨d, hd, rfl⟩ := hall a ha
    exact (digitChar_facts d hd).1
  unfold pyParseInt
  rw [hws]
  cases cs with
  | nil => exact absurd rfl hne
  | cons a t =>
    obtain ⟨d, hd, ha⟩ := hall a (by simp)
    have h1 : a ≠ '-' := by rw [ha]; exact (digitChar_facts d hd).2.2.2.1
    have h2 : a ≠ '+' := by rw [ha]; exact (digitChar_facts d hd).2.2.2.2.1
    have hp := parseDigits_of_shape (a :: t) hne hall
    split
    · next heq => exact absurd (List.head_eq_of_cons_eq heq.symm).symm h1
    · next heq => exact absurd (List.head_eq_of_cons_eq heq.symm).symm h2
    · next heq _ _ =>
      rw [hp]
      rfl

theorem pyParseInt_natDigits (n : ℕ) : pyParseInt (natDigits n) = some (n : ℤ) := by
  rw [pyParseInt_of_shape (natDigits n) (natDigits_ne_nil n) (natDigits_shape n),
    digitsVal_natDigits]

theorem pyParseInt_intDigits (i : ℤ) : pyParseInt (intDigits i) = some i := by
  by_cases hi : i < 0
  · have hm : intDigits i = '-' :: natDigits i.natAbs := by
      simp [intDigits, hi]
    have hws : trimWs (intDigits i) = intDigits i := by
      refine trimWs_eq_self _ (fun a ha => ?_)
      rw [hm] at ha
      rcases List.mem_cons.1 ha with rfl | ha
      · decide
      · obtain ⟨d, hd, rfl⟩ := natDigits_shape _ a ha
        exact (digitChar_facts d hd).1
    unfold pyParseInt
    rw [hws, hm]
    have hp := parseDigits_of_shape (natDigits i.natAbs) (natDigits_ne_nil _)
      (natDigits_shape _)
    split
    · next ds heq =>
      have hds : ds = natDigits i.natAbs := by
        injection heq with h1 h2
        exact h2.symm
      subst hds
      rw [hp]
      simp only [digitsVal_natDigits, Option.bind_eq_bind, Option.some_bind,
        Option.pure_def, Option.map_some']
      congr 1
      omega
    · next ds heq =>
      injection heq with h1 _
      exact absurd h1 (by decide)
    · next h1 h2 =>
      exact absurd rfl (h1 (natDigits i.natAbs))
  · simp only [intDigits, if_neg hi]
    rw [pyParseInt_natDigits]
    congr 1
    omega

/-! ## Coordinate-parser lemmas -/

theorem mkCellCoord_shape (c r : ℕ) :
    ∀ a ∈ mkCellCoord c r,
      (∃ k, k < 26 ∧ a = letterChar k) ∨ (∃ d, d < 10 ∧ a = digitChar d) := by
  intro a ha
  simp only [mkCellCoord, List.mem_append] at ha
  rcases ha with ha | ha
  · exact Or.inl (colLetters_shape c a ha)
  · exact Or.inr (natDigits_shape r a ha)

theorem mkCellCoord_not_mem_colon (c r : ℕ) : ':' ∉ mkCellCoord c r := by
  intro hmem
  rcases mkCellCoord_shape c r ':' hmem with ⟨k, hk, h⟩ | ⟨d, hd, h⟩
  · exact (letterChar_facts k hk).2.2.2.1 h.symm
  · exact (digitChar_facts d hd).2.2.2.2.2.1 h.symm

theorem mkCellCoord_not_mem_bang (c r : ℕ) : '!' ∉ mkCellCoord c r := by
  intro hmem
  rcases mkCellCoord_shape c r '!' hmem with ⟨k, hk, h⟩ | ⟨d, hd, h⟩
  · exact (letterChar_facts k hk).2.2.2.2.1 h.symm
  · exact (digitChar_facts d hd).2.2.2.2.2.2.1 h.symm

theorem parseCoordPart_mkCellCoord (c r : ℕ) (hc1 : 1 ≤ c) (hc2 : c ≤ 18278) :
    parseCoordPart (mkCellCoord c r) = some (some c, some r) := by
  have hletters : ∀ a ∈ colLetters c, isUpperAZ a = true := by
    intro a ha
    obtain ⟨k, hk, rfl⟩ := colLetters_shape c a ha
    exact (letterChar_facts k hk).1
  have hdighead : ∀ y, (natDigits r).head? = some y → isUpperAZ y = false := by
    intro y hy
    obtain ⟨d, hd, rfl⟩ := natDigits_shape r y (List.mem_of_mem_head? hy)
    exact (digitChar_facts d hd).2.2.1
  have hdigall : ∀ a ∈ natDigits r, Char.isDigit a = true := by
    intro a ha
    obtain ⟨d, hd, rfl⟩ := natDigits_shape r a ha
    exact (digitChar_facts d hd).2.1
  have htake : (mkCellCoord c r).takeWhile isUpperAZ = colLetters c :=
    takeWhile_append_eq _ _ _ hletters hdighead
  have hdrop : (mkCellCoord c r).dropWhile isUpperAZ = natDigits r :=
    dropWhile_append_eq _ _ _ hletters hdighead
  have hdollar1 : (match mkCellCoord c r with | '$' :: r => r | r => r) =
      mkCellCoord c r := by
    have hne := colLetters_ne_nil c (by omega)
    cases hcl : colLetters c with
    | nil => exact absurd hcl hne
    | cons a t =>
      obtain ⟨k, hk, ha⟩ := colLetters_shape c a (by rw [hcl]; simp)
      have : a ≠ '$' := by rw [ha]; exact (letterChar_facts k hk).2.2.2.2.2.1
      simp only [mkCellCoord, hcl, List.cons_append]
      split
      · next heq => exact absurd (List.head_eq_of_cons_eq heq.symm).symm this
      · rfl
  have hdollar2 : (match natDigits r with | '$' :: r => r | r => r) = natDigits r := by
    have hne := natDigits_ne_nil r
    cases hd : natDigits r with
    | nil => exact absurd hd hne
    | cons a t =>
      obtain ⟨d, hdd, ha⟩ := natDigits_shape r a (by rw [hd]; simp)
      have : a ≠ '$' := by rw [ha]; exact (digitChar_facts d hdd).2.2.2.2.2.2.2.2.2.1
      split
      · next heq => exact absurd (List.head_eq_of_cons_eq heq.symm).symm this
      · rfl
  unfold parseCoordPart
  simp only [hdollar1, htake, hdrop]
  rw [if_neg (by
    have := colLetters_length_le_three c hc2
    omega)]
  simp only [hdollar2, takeWhile_eq_self_of_all _ _ hdigall,
    dropWhile_eq_nil_of_all _ _ hdigall]
  simp [colLetters_ne_nil c (by omega), natDigits_ne_nil r,
    lettersVal_colLetters, digitsVal_natDigits]

theorem mkCellCoord_not_contains_colon (c r : ℕ) :
    ¬ (mkCellCoord c r).contains ':' = true := by
  rw [List.elem_iff]
  exact mkCellCoord_not_mem_colon c r

theorem openpyxl_mkCellCoord (c r : ℕ) (hc1 : 1 ≤ c) (hc2 : c ≤ 18278) :
    openpyxl_range_boundaries ⟨mkCellCoord c r⟩ =
      .ok (some (c : ℤ), some (r : ℤ), some (c : ℤ), some (r : ℤ)) := by
  unfold openpyxl_range_boundaries
  have hb : breakAtFirst ':' (String.mk (mkCellCoord c r)).data =
      (mkCellCoord c r, Option.none) :=
    breakAtFirst_not_mem ':' _ (mkCellCoord_not_contains_colon c r)
  rw [hb]
  simp [parseCoordPart_mkCellCoord c r hc1 hc2, Int.ofNat_eq_natCast]

theorem openpyxl_mkRangeCoord (c1 r1 c2 r2 : ℕ) (hc1 : 1 ≤ c1) (hc1b : c1 ≤ 18278)
    (hc2 : 1 ≤ c2) (hc2b : c2 ≤ 18278) :
    openpyxl_range_boundaries ⟨mkCellCoord c1 r1 ++ ':' :: mkCellCoord c2 r2⟩ =
      .ok (some (c1 : ℤ), some (r1 : ℤ), some (c2 : ℤ), some (r2 : ℤ)) := by
  unfold openpyxl_range_boundaries
  have hb : breakAtFirst ':'
      (String.mk (mkCellCoord c1 r1 ++ ':' :: mkCellCoord c2 r2)).data =
      (mkCellCoord c1 r1, some (mkCellCoord c2 r2)) :=
    breakAtFirst_append ':' _ _ (mkCellCoord_not_contains_colon c1 r1)
  rw [hb]
  simp [parseCoordPart_mkCellCoord c1 r1 hc1 hc1b,
    parseCoordPart_mkCellCoord c2 r2 hc2 hc2b, Int.ofNat_eq_natCast]

/-! ## Sheet-splitting lemmas -/

theorem split_sheetname_no_bang (address sheet : String)
    (h : ¬ address.data.contains '!' = true) :
    split_sheetname address sheet = .ok (sheet, address) := by
  unfold split_sheetname
  rw [breakAtFirst_not_mem '!' _ h]

theorem split_sheetname_with_prefix (sheet : String) (coord : List Char)
    (hvalid : validSheetStr sheet) (hcoord : '!' ∉ coord) :
    split_sheetname ⟨sheet.data ++ '!' :: coord⟩ "" = .ok (sheet, ⟨coord⟩) := by
  unfold split_sheetname
  have hb : breakAtFirst '!' (String.mk (sheet.data ++ '!' :: coord)).data =
      (sheet.data, some coord) :=
    breakAtFirst_append '!' _ _ hvalid.1
  rw [hb]
  have hc : ¬ coord.contains '!' = true := by
    rw [List.elem_iff]
    exact hcoord
  simp only [hc, if_false, Bool.false_eq_true]
  have hq : unquote_sheetname sheet.data = sheet.data := by
    unfold unquote_sheetname
    rw [if_neg hvalid.2]
  rw [hq]
  have heta : (⟨sheet.data⟩ : String) = sheet := rfl
  rw [heta]
  simp

/-! ## Boundary-resolution lemmas for canonical strings -/

theorem range_boundaries_cellCoord (c r : ℕ) (hc1 : 1 ≤ c) (hc2 : c ≤ 18278)
    (cell : Option CellCtx) (sheet : Option String) :
    range_boundaries ⟨mkCellCoord c r⟩ cell sheet =
      .ok ((some (c : ℤ), some (r : ℤ), some (c : ℤ), some (r : ℤ)), sheet) := by
  unfold range_boundaries
  rw [openpyxl_mkCellCoord c r hc1 hc2]
  simp [b4Full]

theorem range_boundaries_rangeCoord (c1 r1 c2 r2 : ℕ) (hc1 : 1 ≤ c1)
    (hc1b : c1 ≤ 18278) (hc2 : 1 ≤ c2) (hc2b : c2 ≤ 18278)
    (cell : Option CellCtx) (sheet : Option String) :
    range_boundaries ⟨mkCellCoord c1 r1 ++ ':' :: mkCellCoord c2 r2⟩ cell sheet =
      .ok ((some (c1 : ℤ), some (r1 : ℤ), some (c2 : ℤ), some (r2 : ℤ)), sheet) := by
  unfold range_boundaries
  rw [openpyxl_mkRangeCoord c1 r1 c2 r2 hc1 hc1b hc2 hc2b]
  simp [b4Full]

theorem intDigits_natCast (n : ℕ) : intDigits (n : ℤ) = natDigits n := by
  unfold intDigits
  rw [if_neg (by omega)]
  congr 1

theorem addressCellOfTuple_full (c r : ℕ) (hc1 : 1 ≤ c) (hc2 : c ≤ 18278)
    (hr : 1 ≤ r) (sheet : Option String) :
    addressCellOfTuple (some (c : ℤ), some (r : ℤ), some (c : ℤ), some (r : ℤ)) sheet =
      .ok ⟨formatAddr sheet (mkCellCoord c r), sheet, (c : ℤ), (r : ℤ),
        ⟨mkCellCoord c r⟩⟩ := by
  have hc0 : ¬ ((c : ℤ) = 0) := by omega
  have hr0 : ¬ ((r : ℤ) = 0) := by omega
  have hgc : get_column_letter (c : ℤ) = .ok ⟨colLetters c⟩ := by
    unfold get_column_letter
    rw [if_pos (by constructor <;> omega)]
    congr 2
  simp [addressCellOfTuple, truthyOr0, hgc, hc0, hr0, intDigits_natCast, mkCellCoord]

theorem addressRangeOfTuple_full (c1 r1 c2 r2 : ℕ) (hc1 : 1 ≤ c1)
    (hc1b : c1 ≤ 18278) (hr1 : 1 ≤ r1) (hc2 : 1 ≤ c2) (hc2b : c2 ≤ 18278)
    (hr2 : 1 ≤ r2) (hne : ¬ ((c1 : ℤ) = (c2 : ℤ) ∧ (r1 : ℤ) = (r2 : ℤ)))
    (sheet : Option String) :
    addressRangeOfTuple
        (some (c1 : ℤ), some (r1 : ℤ), some (c2 : ℤ), some (r2 : ℤ)) sheet =
      .ok ⟨formatAddr sheet (mkCellCoord c1 r1 ++ ':' :: mkCellCoord c2 r2), sheet,
        ⟨formatAddr sheet (mkCellCoord c1 r1), sheet, (c1 : ℤ), (r1 : ℤ),
          ⟨mkCellCoord c1 r1⟩⟩,
        ⟨formatAddr sheet (mkCellCoord c2 r2), sheet, (c2 : ℤ), (r2 : ℤ),
          ⟨mkCellCoord c2 r2⟩⟩,
        ⟨mkCellCoord c1 r1 ++ ':' :: mkCellCoord c2 r2⟩⟩ := by
  simp only [addressRangeOfTuple, addressCellOfTuple_full c1 r1 hc1 hc1b hr1 sheet,
    addressCellOfTuple_full c2 r2 hc2 hc2b hr2 sheet]
  rw [if_neg (by simp; omega)]

/-- C9 auxiliary: the round-trip for a canonical single-cell string. -/
theorem create_roundtrip_cell (sheet : String) (c r : ℕ) (hvalid : validSheetStr sheet)
    (hc1 : 1 ≤ c) (hc2 : c ≤ 18278) (hr : 1 ≤ r) :
    (AddressRange.create (mkCellAddrStr sheet c r) "" Option.none).map Address.addr =
      .ok (mkCellAddrStr sheet c r) := by
  by_cases hs : sheet = ""
  · subst hs
    have haddr : mkCellAddrStr "" c r = ⟨mkCellCoord c r⟩ := by
      simp [mkCellAddrStr, sheetPrefix]
    rw [haddr]
    have hbang : ¬ (String.mk (mkCellCoord c r)).data.contains '!' = true := by
      rw [List.elem_iff]
      exact mkCellCoord_not_mem_bang c r
    simp only [AddressRange.create, split_sheetname_no_bang _ "" hbang,
      range_boundaries_cellCoord c r hc1 hc2, Option.isSome_some]
    rw [if_neg (by simp)]
    rw [addressCellOfTuple_full c r hc1 hc2 hr]
    simp [Except.map, Address.addr, formatAddr, sheetTruthy]
  · have haddr : mkCellAddrStr sheet c r = ⟨sheet.data ++ '!' :: mkCellCoord c r⟩ := by
      simp [mkCellAddrStr, sheetPrefix, hs]
    rw [haddr]
    simp only [AddressRange.create,
      split_sheetname_with_prefix sheet _ hvalid (mkCellCoord_not_mem_bang c r),
      range_boundaries_cellCoord c r hc1 hc2, Option.isSome_some]
    rw [if_neg (by simp)]
    rw [addressCellOfTuple_full c r hc1 hc2 hr]
    simp [Except.map, Address.addr, formatAddr, sheetTruthy, hs]

/-- C9 auxiliary: the round-trip for a canonical range string. -/
theorem create_roundtrip_range (sheet : String) (c1 r1 c2 r2 : ℕ)
    (hvalid : validSheetStr sheet) (hc1 : 1 ≤ c1) (hc1b : c1 ≤ 18278) (hr1 : 1 ≤ r1)
    (hc2 : 1 ≤ c2) (hc2b : c2 ≤ 18278) (hr2 : 1 ≤ r2)
    (hne : (c1, r1) ≠ (c2, r2)) :
    (AddressRange.create (mkRangeAddrStr sheet c1 r1 c2 r2) "" Option.none).map
        Address.addr =
      .ok (mkRangeAddrStr sheet c1 r1 c2 r2) := by
  have hneZ : ¬ ((c1 : ℤ) = (c2 : ℤ) ∧ (r1 : ℤ) = (r2 : ℤ)) := by
    rintro ⟨h1, h2⟩
    exact hne (by simp only [Prod.ext_iff]; constructor <;> omega)
  have hrng := addressRangeOfTuple_full c1 r1 c2 r2 hc1 hc1b hr1 hc2 hc2b hr2 hneZ
  by_cases hs : sheet = ""
  · subst hs
    have haddr : mkRangeAddrStr "" c1 r1 c2 r2 =
        ⟨mkCellCoord c1 r1 ++ ':' :: mkCellCoord c2 r2⟩ := by
      simp [mkRangeAddrStr, sheetPrefix]
    rw [haddr]
    have hbang : ¬ (String.mk (mkCellCoord c1 r1 ++ ':' :: mkCellCoord c2 r2)).data.contains '!' = true := by
      rw [List.elem_iff]
      intro hmem
      rcases List.mem_append.1 hmem with hmem | hmem
      · exact mkCellCoord_not_mem_bang c1 r1 hmem
      · rcases List.mem_cons.1 hmem with h | hmem
        · exact absurd h.symm (by decide)
        · exact mkCellCoord_not_mem_bang c2 r2 hmem
    simp only [AddressRange.create, split_sheetname_no_bang _ "" hbang,
      range_boundaries_rangeCoord c1 r1 c2 r2 hc1 hc1b hc2 hc2b, Option.isSome_some]
    rw [if_pos (Or.inr (by simpa using hneZ))]
    rw [hrng (some "")]
    simp [Except.map, Address.addr, formatAddr, sheetTruthy]
  · have haddr : mkRangeAddrStr sheet c1 r1 c2 r2 =
        ⟨sheet.data ++ '!' :: (mkCellCoord c1 r1 ++ ':' :: mkCellCoord c2 r2)⟩ := by
      simp [mkRangeAddrStr, sheetPrefix, hs]
    rw [haddr]
    have hbang2 : '!' ∉ mkCellCoord c1 r1 ++ ':' :: mkCellCoord c2 r2 := by
      intro hmem
      rcases List.mem_append.1 hmem with hmem | hmem
      · exact mkCellCoord_not_mem_bang c1 r1 hmem
      · rcases List.mem_cons.1 hmem with h | hmem
        · exact absurd h.symm (by decide)
        · exact mkCellCoord_not_mem_bang c2 r2 hmem
    simp only [AddressRange.create,
      split_sheetname_with_prefix sheet _ hvalid hbang2,
      range_boundaries_rangeCoord c1 r1 c2 r2 hc1 hc1b hc2 hc2b, Option.isSome_some]
    rw [if_pos (Or.inr (by simpa using hneZ))]
    rw [hrng (some sheet)]
    simp [Except.map, Address.addr, formatAddr, sheetTruthy, hs]

/-! ## R1C1 component lemmas -/

theorem bracket_comp_getLast (lead : Char) (ds : List Char) :
    (lead :: '[' :: (ds ++ [']'])).getLast? = some ']' := by
  have h : lead :: '[' :: (ds ++ [']']) = (lead :: '[' :: ds) ++ [']'] := by simp
  rw [h, List.getLast?_concat]

theorem frta_relative (c : CellCtx) (addr : String) (d : ℤ) (lead : Char)
    (hlead : lead = 'R' ∨ lead = 'C') :
    from_relative_to_absolute (some c) addr (lead :: '[' :: (intDigits d ++ [']'])) =
      .ok (if lead = 'R' then Int.emod (c.row + d - 1) MAX_ROW + 1
           else Int.emod (c.col_idx + d - 1) MAX_COL + 1) := by
  unfold from_relative_to_absolute
  rw [if_neg (by rw [bracket_comp_getLast]; simp)]
  have hdrop : ((lead :: '[' :: (intDigits d ++ [']'])).drop 2).dropLast = intDigits d := by
    simp [List.dropLast_concat]
  rw [hdrop, pyParseInt_intDigits d]
  rcases hlead with rfl | rfl
  · simp [show asciiLowerChar 'R' = 'r' from by decide]
  · simp [show asciiLowerChar 'C' = 'c' from by decide]

theorem frta_relative_no_anchor (addr : String) (d : ℤ) (lead : Char) :
    from_relative_to_absolute Option.none addr (lead :: '[' :: (intDigits d ++ [']'])) =
      .error (.assertionError
        ("Must pass a cell to decode a relative address " ++ addr)) := by
  unfold from_relative_to_absolute
  rw [if_neg (by rw [bracket_comp_getLast]; simp)]

theorem frta_absolute (cell : Option CellCtx) (addr : String) (n : ℕ) (lead : Char) :
    from_relative_to_absolute cell addr (lead :: natDigits n) = .ok (n : ℤ) := by
  rcases List.eq_nil_or_concat (natDigits n) with h | ⟨ys, y, hy⟩
  · exact absurd h (natDigits_ne_nil n)
  · have hyshape : ∃ dch, dch < 10 ∧ y = digitChar dch :=
      natDigits_shape n y (by rw [hy]; simp)
    obtain ⟨dch, hdch, rfl⟩ := hyshape
    have hlast : (lead :: natDigits n).getLast? = some (digitChar dch) := by
      have h2 : lead :: natDigits n = (lead :: ys) ++ [digitChar dch] := by
        rw [hy]; simp
      rw [h2, List.getLast?_concat]
    unfold from_relative_to_absolute
    rw [if_pos (by
      rw [hlast]
      intro hcontra
      have h3 := Option.some.inj hcontra
      exact absurd h3 (digitChar_facts dch hdch).2.2.2.2.2.2.2.1)]
    rw [if_pos (by
      have := natDigits_ne_nil n
      cases hnd : natDigits n with
      | nil => exact absurd hnd this
      | cons a t => simp [hnd])]
    have hdrop : (lead :: natDigits n).drop 1 = natDigits n := rfl
    rw [hdrop, pyParseInt_natDigits n]

/-! ## Structured-reference lemmas -/

theorem tableRefSplit_build (nameCs selCs : List Char) (hne : nameCs ≠ [])
    (hnb : ¬ nameCs.contains '[' = true) :
    tableRefSplit (nameCs ++ '[' :: (selCs ++ [']'])) = some (nameCs, selCs) := by
  unfold tableRefSplit
  rw [breakAtFirst_append '[' _ _ hnb]
  simp [hne, List.getLast?_concat, List.dropLast_concat]

/-- Evaluation skeleton for `structured_reference_boundaries` on a
`Name[selector]` address whose selector resolves to a rows keyword with no
explicit columns. -/
theorem srb_eval (nameCs selCs : List Char) (rowsV : Option (List Char))
    (c : CellCtx) (sheet : Option String) (tbl : TableRec)
    (sheet2 : Option String) (b0 b1 b2 b3 minRow maxRow : ℤ)
    (hne : nameCs ≠ []) (hnb : ¬ nameCs.contains '[' = true)
    (htab : c.excel.table ⟨nameCs⟩ sheet = (some tbl, sheet2))
    (href : openpyxl_range_boundaries tbl.ref = .ok (some b0, some b1, some b2, some b3))
    (hsel : selParse ⟨nameCs ++ '[' :: (selCs ++ [']'])⟩ selCs =
      .ok (rowsV, Option.none, Option.none))
    (hrow : rowSpan rowsV tbl c b1 b3 = .ok (minRow, maxRow))
    (hv : ¬ (minRow > maxRow ∨ b0 > b2)) :
    structured_reference_boundaries ⟨nameCs ++ '[' :: (selCs ++ [']'])⟩
        (some c) sheet =
      .ok (some ((b0, minRow, b2, maxRow), sheet2)) := by
  unfold structured_reference_boundaries
  rw [show (String.mk (nameCs ++ '[' :: (selCs ++ [']']))).data =
    nameCs ++ '[' :: (selCs ++ [']']) from rfl]
  rw [tableRefSplit_build nameCs selCs hne hnb]
  have hcol : colSpan ⟨nameCs ++ '[' :: (selCs ++ [']'])⟩ tbl b0 b2
      Option.none Option.none = .ok (b0, b2) := rfl
  simp only [htab, href, hsel, hrow, hcol]
  rw [if_neg hv]

theorem srb_requires_cell (s : String) (g : List Char × List Char)
    (sheet : Option String) (h : tableRefSplit s.data = some g) :
    structured_reference_boundaries s Option.none sheet =
      .error (.pycelException ("Must pass cell for Structured Reference " ++ s)) := by
  obtain ⟨n, sel⟩ := g
  unfold structured_reference_boundaries
  rw [h]

/-! ## Coercion-engine lemmas -/

theorem coerce_int (i : ℤ) : coerce_to_number (.int i) = .ok (.int i) := by
  simp only [coerce_to_number]
  rw [if_pos ⟨rfl, by simp [pyIntOf, asNum?, Rat.mkRat_one]⟩]
  rfl

theorem coerce_float_narrow (q : ℚ) (h : q.den = 1) :
    coerce_to_number (.float q) = .ok (.int q.num) := by
  have htr : qtrunc q = q.num := by
    unfold qtrunc
    split <;> simp [Rat.floor, Rat.ceil, h]
  simp only [coerce_to_number]
  rw [if_pos ⟨rfl, by
    simp only [pyIntOf, asNum?, htr, Option.getD_some, Rat.mkRat_one]
    exact_mod_cast (Rat.den_eq_one_iff q).1 h⟩]
  simp [pyIntOf, htr]

theorem coerce_float_keep (q : ℚ) (h : q.den ≠ 1) :
    coerce_to_number (.float q) = .ok (.float q) := by
  simp only [coerce_to_number]
  rw [if_neg (by
    rintro ⟨-, hcontra⟩
    simp only [pyIntOf, asNum?, Option.getD_some, Rat.mkRat_one] at hcontra
    have := congrArg Rat.den hcontra
    simp [Rat.den_intCast] at this
    exact h this.symm)]

theorem coerce_none : coerce_to_number .none = .ok .none := by decide

theorem coerce_bool (b : Bool) :
    coerce_to_number (.bool b) = .ok (.int (if b then 1 else 0)) := by
  cases b <;> decide

theorem coerce_str_int (s : String) (i : ℤ) (h1 : s ≠ DIV0)
    (h2 : s.data.contains '.' = false) (h3 : pyParseInt s.data = some i) :
    coerce_to_number (.str s) = .ok (.int i) := by
  simp only [coerce_to_number]
  rw [if_neg h1, if_pos ⟨by rw [h2]; simp, by simp [h3]⟩]
  simp [h3]

theorem coerce_str_float (s : String) (q : ℚ) (h1 : s ≠ DIV0)
    (h2 : s.data.contains '.' = true ∨ pyParseInt s.data = Option.none)
    (h3 : pyParseFloat s.data = some q) :
    coerce_to_number (.str s) = .ok (.float q) := by
  simp only [coerce_to_number]
  rw [if_neg h1, if_neg (by
    rintro ⟨hc, hsome⟩
    rcases h2 with h2 | h2
    · exact absurd h2 (by simpa using hc)
    · rw [h2] at hsome
      simp at hsome)]
  rw [h3]

theorem coerce_str_text (s : String) (h1 : s ≠ DIV0)
    (h2 : pyParseInt s.data = Option.none) (h3 : pyParseFloat s.data = Option.none) :
    coerce_to_number (.str s) = .ok (.str s) := by
  simp only [coerce_to_number]
  rw [if_neg h1, if_neg (by
    rintro ⟨-, hsome⟩
    rw [h2] at hsome
    simp at hsome)]
  rw [h3]

theorem coerce_div0_raises :
    coerce_to_number (.str DIV0) = .error .zeroDivisionError := by decide

theorem coerce_error_shape (v : PyVal) (e : PyErr)
    (h : coerce_to_number v = .error e) :
    e = .zeroDivisionError ∧ v = .str DIV0 := by
  cases v with
  | str s =>
    simp only [coerce_to_number] at h
    by_cases hs : s = DIV0
    · rw [if_pos hs] at h
      exact ⟨(Except.error.inj h).symm, by rw [hs]⟩
    · rw [if_neg hs] at h
      split at h
      · simp at h
      · split at h <;> simp at h
  | none =>
    rw [coerce_none] at h
    simp at h
  | bool b =>
    rw [coerce_bool b] at h
    simp at h
  | int i =>
    rw [coerce_int i] at h
    simp at h
  | float q =>
    by_cases hq : q.den = 1
    · rw [coerce_float_narrow q hq] at h
      simp at h
    · rw [coerce_float_keep q hq] at h
      simp at h

theorem blank_subst_cases (v : PyVal) :
    blank_subst v = .int 0 ∨ blank_subst v = .str "" := by
  unfold blank_subst
  split
  · exact Or.inl rfl
  · exact Or.inr rfl

theorem blank_subst_ne_div0 (v : PyVal) : blank_subst v ≠ .str DIV0 := by
  rcases blank_subst_cases v with h | h <;> rw [h] <;> decide

theorem opCoerce_error_shape (l : PyVal) (op : Op) (r : PyVal) (e : PyErr)
    (h : opCoerce l op r = .error e) :
    e = .zeroDivisionError ∧ (l = .str DIV0 ∨ r = .str DIV0) := by
  unfold opCoerce at h
  split at h
  · split at h
    · split at h <;> simp at h
    · simp at h
  · split at h <;>
    · split at h
      · next e' heq =>
        obtain ⟨he, hv⟩ := coerce_error_shape l e' heq
        have h2 : e' = e := by simpa using h
        exact ⟨h2 ▸ he, Or.inl hv⟩
      · split at h
        · next e' heq =>
          obtain ⟨he, hv⟩ := coerce_error_shape r e' heq
          have h2 : e' = e := by simpa using h
          exact ⟨h2 ▸ he, Or.inr hv⟩
        · simp at h

/-! ## Claim C4 -/

/-- C4: for every operator and operands, an operand equal to the
division-by-zero error code makes `fixup` return that code; otherwise an
operand equal to the value-type error code makes it return that code.  The
check is unconditional — it precedes blank substitution and coercion for
every operator — and the division-by-zero code dominates. -/
theorem C4_error_dominance (l : PyVal) (op : Op) (r : PyVal) :
    ((l = .str DIV0 ∨ r = .str DIV0) → fixup l op r = (.ok (.str DIV0), [])) ∧
    (l ≠ .str DIV0 → r ≠ .str DIV0 →
      (l = .str VALUE_ERROR ∨ r = .str VALUE_ERROR) →
      fixup l op r = (.ok (.str VALUE_ERROR), [])) := by
  constructor
  · intro h
    unfold fixup
    rw [if_pos h]
  · intro h1 h2 h3
    unfold fixup
    rw [if_neg (by tauto), if_pos h3]

/-- C4 witness: `apply(DIV0, add, 1) = DIV0`, via `C4_error_dominance`. -/
theorem C4_witness : fixup (.str DIV0) .Add (.int 1) = (.ok (.str DIV0), []) :=
  (C4_error_dominance (.str DIV0) .Add (.int 1)).1 (Or.inl rfl)

/-! ## Claim C7 -/

/-- C7 counterexample: a structured table reference with a non-contextual
selector (`T[#Headers]`) does not resolve without an anchor cell — it
raises `PyCelException`, where the claim says it resolves successfully. -/
theorem C7_counterexample :
    structured_reference_boundaries "T[#Headers]" Option.none Option.none =
      .error (.pycelException "Must pass cell for Structured Reference T[#Headers]") := by
  decide

/-- C7 amended: the anchor cell is mandatory for every structured table
reference — the table metadata provider is reached through it — so a
missing anchor raises for every address that matches the
`TableName[selector]` shape, whatever the selector. -/
theorem C7_amended (s : String) (g : List Char × List Char)
    (sheet : Option String) (h : tableRefSplit s.data = some g) :
    structured_reference_boundaries s Option.none sheet =
      .error (.pycelException ("Must pass cell for Structured Reference " ++ s)) := by
  obtain ⟨n, sel⟩ := g
  unfold structured_reference_boundaries
  rw [h]

/-- C7 witness: `C7_amended` applied to the concrete reference `T[Col1]`. -/
theorem C7_witness :
    structured_reference_boundaries "T[Col1]" Option.none Option.none =
      .error (.pycelException "Must pass cell for Structured Reference T[Col1]") :=
  C7_amended "T[Col1]" ("T".data, "Col1".data) Option.none (by decide)

/-! ## Claim C10 -/

/-- C10: whenever `AddressRange.create` resolves a string to a multi-cell
range, `AddressCell.create` on the same inputs raises `ValueError` instead
of returning the range, and a successful `AddressCell.create` result is
always a single cell. -/
theorem C10_cell_create_rejects_ranges :
    (∀ (s sheet : String) (cell : Option CellCtx) (rng : AddressRange),
      AddressRange.create s sheet cell = .ok (.range rng) →
      AddressCell.create s sheet cell =
        .error (.valueError (s ++ " is not a valid coordinate"))) ∧
    (∀ (s sheet : String) (cell : Option CellCtx) (x : Address),
      AddressCell.create s sheet cell = .ok x → ∃ a, x = .cell a) := by
  constructor
  · intro s sheet cell rng h
    unfold AddressCell.create
    rw [h]
  · intro s sheet cell x h
    unfold AddressCell.create at h
    split at h
    · simp at h
    · next other hrange =>
      match hcr : AddressRange.create s sheet cell, h with
      | .ok (.cell a), h =>
        exact ⟨a, (Except.ok.inj h.symm)⟩
      | .ok (.range rng), h =>
        exact absurd hcr (hrange rng)
      | .error e, h =>
        simp at h

/-- C10 witness: `A1:B2` resolves to a range, so `AddressCell.create`
rejects it, via `C10_cell_create_rejects_ranges`. -/
theorem C10_witness :
    AddressCell.create "A1:B2" "" Option.none =
      .error (.valueError "A1:B2 is not a valid coordinate") :=
  C10_cell_create_rejects_ranges.1 "A1:B2" "" Option.none
    ⟨"A1:B2", some "", ⟨"A1", some "", 1, 1, "A1"⟩, ⟨"B2", some "", 2, 2, "B2"⟩,
      "A1:B2"⟩ (by decide)

/-! ## Claim C8 -/

/-- C8 counterexample: coercing the division-by-zero literal does not
produce a numeric value — evaluating `1 / 0` raises `ZeroDivisionError`,
which the surrounding handler (catching only `ValueError`/`TypeError`)
does not intercept. -/
theorem C8_counterexample :
    coerce_to_number (.str DIV0) = .error .zeroDivisionError := by decide

/-- C8 amended: for the operand coercion used by all operators other than
equals/not-equals and text-join — text that is a plain integer literal
(no decimal point) becomes an integer; the division-by-zero literal
raises a division-by-zero fault instead of producing a value; text
parseable as a real number becomes a float; non-parseable text stays
text; and a non-text numeric value whose integer and float forms are
equal is narrowed to an integer. -/
theorem C8_coercion_rules :
    (∀ (s : String) (i : ℤ), s ≠ DIV0 → s.data.contains '.' = false →
      pyParseInt s.data = some i → coerce_to_number (.str s) = .ok (.int i)) ∧
    coerce_to_number (.str DIV0) = .error .zeroDivisionError ∧
    (∀ (s : String) (q : ℚ), s ≠ DIV0 →
      (s.data.contains '.' = true ∨ pyParseInt s.data = Option.none) →
      pyParseFloat s.data = some q → coerce_to_number (.str s) = .ok (.float q)) ∧
    (∀ (s : String), s ≠ DIV0 → pyParseInt s.data = Option.none →
      pyParseFloat s.data = Option.none → coerce_to_number (.str s) = .ok (.str s)) ∧
    (∀ q : ℚ, q.den = 1 → coerce_to_number (.float q) = .ok (.int q.num)) ∧
    (∀ q : ℚ, q.den ≠ 1 → coerce_to_number (.float q) = .ok (.float q)) ∧
    (∀ i : ℤ, coerce_to_number (.int i) = .ok (.int i)) ∧
    (∀ b : Bool, coerce_to_number (.bool b) = .ok (.int (if b then 1 else 0))) :=
  ⟨coerce_str_int, coerce_div0_raises, coerce_str_float, coerce_str_text,
    coerce_float_narrow, coerce_float_keep, coerce_int, coerce_bool⟩

/-- C8 witness: `C8_coercion_rules` applied to `"5"`, `"5.5"` and `"abc"`. -/
theorem C8_witness :
    coerce_to_number (.str "5") = .ok (.int 5) ∧
    coerce_to_number (.str "5.5") = .ok (.float (mkRat 11 2)) ∧
    coerce_to_number (.str "abc") = .ok (.str "abc") ∧
    coerce_to_number (.float (mkRat 2 1)) = .ok (.int 2) :=
  ⟨C8_coercion_rules.1 "5" 5 (by decide) (by decide) (by decide),
    C8_coercion_rules.2.2.1 "5.5" (mkRat 11 2) (by decide) (Or.inl (by decide))
      (by decide),
    C8_coercion_rules.2.2.2.1 "abc" (by decide) (by decide) (by decide),
    C8_coercion_rules.2.2.2.2.1 (mkRat 2 1) (by decide)⟩

/-! ## Fixup evaluation helpers for the comparison claims -/

theorem fixup_eq_str_str (a b : String) (op : Op) (hop : op = .Eq ∨ op = .NotEq)
    (ha1 : a ≠ DIV0) (ha2 : a ≠ VALUE_ERROR) (ha3 : a ≠ EMPTY)
    (hb1 : b ≠ DIV0) (hb2 : b ≠ VALUE_ERROR) (hb3 : b ≠ EMPTY) :
    fixup (.str a) op (.str b) =
      (pyApplyOp op (.str (pyLower a)) (.str (pyLower b)), []) := by
  unfold fixup
  rw [if_neg (by simp [ha1, hb1]), if_neg (by simp [ha2, hb2])]
  have hba : isBlank (.str a) = false := by simp [isBlank, ha3]
  have hbb : isBlank (.str b) = false := by simp [isBlank, hb3]
  simp only [hba, hbb, Bool.false_eq_true, if_false]
  have hoc : opCoerce (.str a) op (.str b) =
      .ok (.str (pyLower a), op, .str (pyLower b)) := by
    unfold opCoerce
    rw [if_pos hop, if_pos ⟨rfl, rfl⟩]
  unfold fixup_dispatch
  simp only [hoc]
  rw [if_neg (by rcases hop with rfl | rfl <;> simp)]
  rcases hop with rfl | rfl <;> simp [pyApplyOp]

theorem fixup_eq_mixed (l r : PyVal) (op : Op) (hop : op = .Eq ∨ op = .NotEq)
    (hmix : ¬ (l.isStr = true ∧ r.isStr = true))
    (hbl : isBlank l = false) (hbr : isBlank r = false)
    (hl1 : l ≠ .str DIV0) (hl2 : l ≠ .str VALUE_ERROR)
    (hr1 : r ≠ .str DIV0) (hr2 : r ≠ .str VALUE_ERROR) :
    fixup l op r = (pyApplyOp op l r, []) := by
  unfold fixup
  rw [if_neg (by tauto), if_neg (by tauto)]
  simp only [hbl, hbr, Bool.false_eq_true, if_false]
  have hoc : opCoerce l op r = .ok (l, op, r) := by
    unfold opCoerce
    rw [if_pos hop, if_neg hmix]
  unfold fixup_dispatch
  simp only [hoc]
  rw [if_neg (by rcases hop with rfl | rfl <;> simp)]
  rcases hop with rfl | rfl <;> simp [pyApplyOp]

/-! ## Claim C1 -/

/-- C1 counterexample: `apply("5", equals, 5)` is `false`, not `true` —
for equals/not-equals a mixed text/number pair is not coerced before
comparison, so text never equals a number. -/
theorem C1_counterexample :
    fixup (.str "5") .Eq (.int 5) = (.ok (.bool false), []) ∧
    PyVal.bool false ≠ PyVal.bool true := by decide

/-- C1 amended: for equals/not-equals, two text operands compare
case-insensitively; when at least one operand is not text, the operands
are passed to the raw comparison primitive with no coercion at all, so a
text operand and a number always compare unequal. -/
theorem C1_eq_semantics :
    (∀ (a b : String), a ≠ DIV0 → a ≠ VALUE_ERROR → a ≠ EMPTY → b ≠ DIV0 →
      b ≠ VALUE_ERROR → b ≠ EMPTY →
      fixup (.str a) .Eq (.str b) =
        (.ok (.bool (decide (pyLower a = pyLower b))), []) ∧
      fixup (.str a) .NotEq (.str b) =
        (.ok (.bool (! decide (pyLower a = pyLower b))), [])) ∧
    (∀ (l r : PyVal), ¬ (l.isStr = true ∧ r.isStr = true) → isBlank l = false →
      isBlank r = false → l ≠ .str DIV0 → l ≠ .str VALUE_ERROR → r ≠ .str DIV0 →
      r ≠ .str VALUE_ERROR →
      fixup l .Eq r = (.ok (.bool (pyEq l r)), []) ∧
      fixup l .NotEq r = (.ok (.bool (! pyEq l r)), [])) := by
  constructor
  · intro a b ha1 ha2 ha3 hb1 hb2 hb3
    constructor
    · rw [fixup_eq_str_str a b .Eq (Or.inl rfl) ha1 ha2 ha3 hb1 hb2 hb3]
      rfl
    · rw [fixup_eq_str_str a b .NotEq (Or.inr rfl) ha1 ha2 ha3 hb1 hb2 hb3]
      rfl
  · intro l r hmix hbl hbr hl1 hl2 hr1 hr2
    constructor
    · rw [fixup_eq_mixed l r .Eq (Or.inl rfl) hmix hbl hbr hl1 hl2 hr1 hr2]
      rfl
    · rw [fixup_eq_mixed l r .NotEq (Or.inr rfl) hmix hbl hbr hl1 hl2 hr1 hr2]
      rfl

/-- C1 witness: `apply("ABC", equals, "abc") = true` and
`apply(1, equals, "1") = false`, via `C1_eq_semantics`. -/
theorem C1_witness :
    fixup (.str "ABC") .Eq (.str "abc") = (.ok (.bool true), []) ∧
    fixup (.int 1) .Eq (.str "1") = (.ok (.bool false), []) := by
  constructor
  · have h := (C1_eq_semantics.1 "ABC" "abc" (by decide) (by decide) (by decide)
      (by decide) (by decide) (by decide)).1
    have e : decide (pyLower "ABC" = pyLower "abc") = true := by decide
    rw [e] at h
    exact h
  · have h := (C1_eq_semantics.2 (.int 1) (.str "1") (by decide) (by decide)
      (by decide) (by decide) (by decide) (by decide) (by decide)).1
    have e : pyEq (.int 1) (.str "1") = false := by decide
    rw [e] at h
    exact h

/-! ## Claim C2 -/

/-- C2 counterexample: a blank operand whose partner is the empty text
string `""` becomes `""`, not `0` — the code replaces a blank by `0` only
when the partner is a non-string or the empty-cell sentinel, and `""` is
an ordinary string. -/
theorem C2_counterexample :
    blank_subst (.str "") = .str "" ∧ PyVal.str "" ≠ PyVal.int 0 ∧
    fixup .none .BitAnd (.str "") = (.ok (.str ""), []) := by decide

/-- C2 amended: a null/empty operand becomes `0` unless the other operand
is a string different from the empty-cell sentinel — including the empty
string `""` — in which case it becomes `""`; in particular
`apply(empty, add, i) = i` and `apply(empty, text_join, "x") = "x"`. -/
theorem C2_blank_substitution :
    (∀ s : String, blank_subst (.str s) = if s = EMPTY then .int 0 else .str "") ∧
    (∀ v : PyVal, v.isStr = false → blank_subst v = .int 0) ∧
    (∀ i : ℤ, fixup .none .Add (.int i) = (.ok (.int i), [])) ∧
    (∀ i : ℤ, fixup (.str EMPTY) .Add (.int i) = (.ok (.int i), [])) ∧
    fixup .none .BitAnd (.str "x") = (.ok (.str "x"), []) := by
  refine ⟨?_, ?_, ?_, ?_, by decide⟩
  · intro s
    by_cases h : s = EMPTY <;> simp [blank_subst, PyVal.isStr, h]
  · intro v h
    simp [blank_subst, h]
  · intro i
    unfold fixup
    rw [if_neg (by simp), if_neg (by simp)]
    have hd : fixup_dispatch (.int 0) .Add (.int i) = (.ok (.int i), []) := by
      have hoc : opCoerce (.int 0) .Add (.int i) = .ok (.int 0, .Add, .int i) := by
        unfold opCoerce
        rw [if_neg (by simp), if_neg (by simp)]
        rw [coerce_int 0, coerce_int i]
      unfold fixup_dispatch
      simp only [hoc]
      rw [if_neg (by simp)]
      simp [pyApplyOp, numBin, intLike]
    simpa [isBlank, blank_subst, PyVal.isStr] using hd
  · intro i
    unfold fixup
    rw [if_neg (by
      rintro (h | h)
      · exact absurd (PyVal.str.inj h) (by decide)
      · simp at h)]
    rw [if_neg (by
      rintro (h | h)
      · exact absurd (PyVal.str.inj h) (by decide)
      · simp at h)]
    have hd : fixup_dispatch (.int 0) .Add (.int i) = (.ok (.int i), []) := by
      have hoc : opCoerce (.int 0) .Add (.int i) = .ok (.int 0, .Add, .int i) := by
        unfold opCoerce
        rw [if_neg (by simp), if_neg (by simp)]
        rw [coerce_int 0, coerce_int i]
      unfold fixup_dispatch
      simp only [hoc]
      rw [if_neg (by simp)]
      simp [pyApplyOp, numBin, intLike]
    simpa [isBlank, blank_subst, PyVal.isStr] using hd

/-- C2 witness: `apply(empty, add, 5) = 5` and the sentinel-partner rule,
via `C2_blank_substitution`. -/
theorem C2_witness :
    fixup .none .Add (.int 5) = (.ok (.int 5), []) ∧
    blank_subst (.str "#EMPTY!") = .int 0 ∧
    blank_subst (.int 7) = .int 0 := by
  refine ⟨C2_blank_substitution.2.2.1 5, ?_,
    C2_blank_substitution.2.1 (.int 7) (by decide)⟩
  rw [C2_blank_substitution.1 "#EMPTY!"]
  decide

/-! ## Claim C3 -/

/-- C3 counterexample: an exception can escape `apply` — a negative shift
count raises `ValueError`, which the dispatch handler (catching only
`ZeroDivisionError` and `TypeError`) does not intercept. -/
theorem C3_counterexample :
    fixup (.int 1) .LShift (.int (-1)) =
      (.error (.valueError "negative shift count"), []) := by decide

/-- C3 amended: a division-by-zero raised by the primitive is caught and
converted to the division-by-zero code with a diagnostic, and a type
mismatch is caught and converted to the value-type code with a
diagnostic; but only those two exception classes are caught, so any fault
that escapes `apply` is of some other class (e.g. the value fault raised
by a negative shift count). -/
theorem C3_fault_conversion :
    fixup (.int 1) .Div (.int 0) = (.ok (.str DIV0), [(true, "Values: 1 Div 0")]) ∧
    fixup (.str "abc") .Sub (.int 1) =
      (.ok (.str VALUE_ERROR), [(true, "Values: abc Sub 1")]) ∧
    (∀ (l : PyVal) (op : Op) (r : PyVal) (e : PyErr) (ds : List Diag),
      fixup l op r = (.error e, ds) →
      e ≠ .zeroDivisionError ∧ e ≠ .typeError) := by
  refine ⟨by decide, by decide, ?_⟩
  intro l op r e ds h
  unfold fixup at h
  split at h
  · simp at h
  · split at h
    · simp at h
    · next hg1 hg2 =>
      have h2 : fixup_dispatch (if isBlank l then blank_subst r else l) op
          (if isBlank r then
            blank_subst (if isBlank l then blank_subst r else l) else r) =
          (.error e, ds) := h
      have hl1 : (if isBlank l then blank_subst r else l) ≠ .str DIV0 := by
        split
        · exact blank_subst_ne_div0 r
        · tauto
      have hr1 : (if isBlank r then
          blank_subst (if isBlank l then blank_subst r else l) else r) ≠
          .str DIV0 := by
        split
        · exact blank_subst_ne_div0 _
        · tauto
      unfold fixup_dispatch at h2
      split at h2
      · next e' heq =>
        obtain ⟨he, hv⟩ := opCoerce_error_shape _ op _ e' heq
        rcases hv with hv | hv
        · exact absurd hv hl1
        · exact absurd hv hr1
      · split at h2
        · simp at h2
        · split at h2
          · simp at h2
          · simp at h2
          · simp at h2
          · next e'' hz ht heq =>
            have he : e'' = e := by
              have h3 := congrArg Prod.fst h2
              simpa using h3
            subst he
            exact ⟨fun hc => hz hc, fun hc => ht hc⟩

/-- C3 witness: `C3_fault_conversion` applied at the escaping-fault input
`apply(1, shift-left, -1)`. -/
theorem C3_witness :
    (PyErr.valueError "negative shift count") ≠ PyErr.zeroDivisionError ∧
    (PyErr.valueError "negative shift count") ≠ PyErr.typeError :=
  C3_fault_conversion.2.2 (.int 1) .LShift (.int (-1))
    (.valueError "negative shift count") [] (by decide)

/-! ## Claim C5 -/

/-- C5: in R1C1 notation a relative component `R[d]`/`C[d]` requires a
non-null anchor cell (raising otherwise) and resolves to
`(anchor + d - 1) mod MAX + 1` with `MAX_ROW = 1048576` and
`MAX_COL = 16384`; an absolute component `R<n>`/`C<n>` resolves to `n`
regardless of the anchor. -/
theorem C5_r1c1_components :
    (∀ (c : CellCtx) (addr : String) (d : ℤ),
      from_relative_to_absolute (some c) addr
        ('R' :: '[' :: (intDigits d ++ [']'])) =
        .ok (Int.emod (c.row + d - 1) MAX_ROW + 1)) ∧
    (∀ (c : CellCtx) (addr : String) (d : ℤ),
      from_relative_to_absolute (some c) addr
        ('C' :: '[' :: (intDigits d ++ [']'])) =
        .ok (Int.emod (c.col_idx + d - 1) MAX_COL + 1)) ∧
    (∀ (addr : String) (d : ℤ) (lead : Char),
      from_relative_to_absolute Option.none addr
        (lead :: '[' :: (intDigits d ++ [']'])) =
        .error (.assertionError
          ("Must pass a cell to decode a relative address " ++ addr))) ∧
    (∀ (cell : Option CellCtx) (addr : String) (n : ℕ),
      from_relative_to_absolute cell addr ('R' :: natDigits n) = .ok (n : ℤ)) ∧
    (∀ (cell : Option CellCtx) (addr : String) (n : ℕ),
      from_relative_to_absolute cell addr ('C' :: natDigits n) = .ok (n : ℤ)) := by
  refine ⟨?_, ?_, frta_relative_no_anchor,
    fun cl a n => frta_absolute cl a n 'R', fun cl a n => frta_absolute cl a n 'C'⟩
  · intro c addr d
    have h := frta_relative c addr d 'R' (Or.inl rfl)
    simpa using h
  · intro c addr d
    have h := frta_relative c addr d 'C' (Or.inr rfl)
    simpa using h

/-- C5 witness: with the anchor at row 5, column 3, `R[2]` resolves to 7
and `C[2]` to 5, while `R2`/`C2` resolve to 2 with or without an anchor —
via `C5_r1c1_components`. -/
theorem C5_witness :
    from_relative_to_absolute (some witnessCell) "R[2]C[2]"
      ('R' :: '[' :: (intDigits 2 ++ [']'])) = .ok 7 ∧
    from_relative_to_absolute (some witnessCell) "R[2]C[2]"
      ('C' :: '[' :: (intDigits 2 ++ [']'])) = .ok 5 ∧
    from_relative_to_absolute (some witnessCell) "R2C2" ('R' :: natDigits 2) =
      .ok 2 ∧
    from_relative_to_absolute Option.none "R2C2" ('C' :: natDigits 2) = .ok 2 := by
  refine ⟨?_, ?_, C5_r1c1_components.2.2.2.1 (some witnessCell) "R2C2" 2,
    C5_r1c1_components.2.2.2.2 Option.none "R2C2" 2⟩
  · have h := C5_r1c1_components.1 witnessCell "R[2]C[2]" 2
    have e : Int.emod (witnessCell.row + 2 - 1) MAX_ROW + 1 = 7 := by decide
    rw [e] at h
    exact h
  · have h := C5_r1c1_components.2.1 witnessCell "R[2]C[2]" 2
    have e : Int.emod (witnessCell.col_idx + 2 - 1) MAX_COL + 1 = 5 := by decide
    rw [e] at h
    exact h

/-! ## Claim C6 -/

/-- C6: for a table whose boundary spans rows `b1..b3` with header-row
count `h ≥ 1` and totals-row count `t ≥ 1` (and a nonempty band of data
rows), the structured row keywords resolve so that `#Headers` covers the
top `h` rows `b1..b1+h-1`, `#Totals` the bottom `t` rows `b3-t+1..b3`,
and `#Data` the remainder `b1+h..b3-t`. -/
theorem C6_structured_rows (nameCs : List Char) (c : CellCtx)
    (sheet : Option String) (tbl : TableRec) (sheet2 : Option String)
    (b0 b1 b2 b3 : ℤ) (hne : nameCs ≠ []) (hnb : ¬ nameCs.contains '[' = true)
    (htab : c.excel.table ⟨nameCs⟩ sheet = (some tbl, sheet2))
    (href : openpyxl_range_boundaries tbl.ref =
      .ok (some b0, some b1, some b2, some b3))
    (hh : 1 ≤ tbl.headerRowCount) (ht : 1 ≤ tbl.totalsRowCount) (hc : b0 ≤ b2)
    (hdata : b1 + (tbl.headerRowCount : ℤ) ≤ b3 - (tbl.totalsRowCount : ℤ)) :
    structured_reference_boundaries
        ⟨nameCs ++ '[' :: ("#Headers".data ++ [']'])⟩ (some c) sheet =
      .ok (some ((b0, b1, b2, b1 + (tbl.headerRowCount : ℤ) - 1), sheet2)) ∧
    structured_reference_boundaries
        ⟨nameCs ++ '[' :: ("#Data".data ++ [']'])⟩ (some c) sheet =
      .ok (some ((b0, b1 + (tbl.headerRowCount : ℤ), b2,
        b3 - (tbl.totalsRowCount : ℤ)), sheet2)) ∧
    structured_reference_boundaries
        ⟨nameCs ++ '[' :: ("#Totals".data ++ [']'])⟩ (some c) sheet =
      .ok (some ((b0, b3 - (tbl.totalsRowCount : ℤ) + 1, b2, b3), sheet2)) := by
  refine ⟨?_, ?_, ?_⟩
  · exact srb_eval nameCs "#Headers".data (some "#Headers".data) c sheet tbl
      sheet2 b0 b1 b2 b3 b1 (b1 + (tbl.headerRowCount : ℤ) - 1) hne hnb htab href
      rfl rfl (by push_neg; constructor <;> omega)
  · exact srb_eval nameCs "#Data".data (some "#Data".data) c sheet tbl
      sheet2 b0 b1 b2 b3 (b1 + (tbl.headerRowCount : ℤ))
      (b3 - (tbl.totalsRowCount : ℤ)) hne hnb htab href
      rfl rfl (by push_neg; constructor <;> omega)
  · exact srb_eval nameCs "#Totals".data (some "#Totals".data) c sheet tbl
      sheet2 b0 b1 b2 b3 (b3 - (tbl.totalsRowCount : ℤ) + 1) b3 hne hnb htab href
      rfl rfl (by push_neg; constructor <;> omega)

/-- C6 witness: the concrete table `T` over `A1:C10` with one header row
and one totals row — `T[#Headers]` = row 1, `T[#Data]` = rows 2–9,
`T[#Totals]` = row 10 — via `C6_structured_rows`. -/
theorem C6_witness :
    structured_reference_boundaries
        ⟨"T".data ++ '[' :: ("#Headers".data ++ [']'])⟩ (some witnessCell)
        Option.none = .ok (some ((1, 1, 3, 1), Option.none)) ∧
    structured_reference_boundaries
        ⟨"T".data ++ '[' :: ("#Data".data ++ [']'])⟩ (some witnessCell)
        Option.none = .ok (some ((1, 2, 3, 9), Option.none)) ∧
    structured_reference_boundaries
        ⟨"T".data ++ '[' :: ("#Totals".data ++ [']'])⟩ (some witnessCell)
        Option.none = .ok (some ((1, 10, 3, 10), Option.none)) := by
  have h := C6_structured_rows "T".data witnessCell Option.none
    { ref := "A1:C10", headerRowCount := 1, totalsRowCount := 1,
      tableColumns := ["Col1", "Col2", "Col3"] } Option.none 1 1 3 10
    (by decide) (by decide) rfl (by decide) (by decide) (by decide) (by decide)
    (by decide)
  obtain ⟨h1, h2, h3⟩ := h
  norm_num at h1 h2 h3
  exact ⟨h1, h2, h3⟩

/-! ## Claim C9 -/

/-- C9: for every validly formatted address string with no redundant
formatting — a canonical cell string `[Sheet!]Letters Row` or a canonical
range string `[Sheet!]Cell1:Cell2` with distinct corners — building the
value and reading back its address returns the original string exactly. -/
theorem C9_roundtrip :
    (∀ (sheet : String) (c r : ℕ), validSheetStr sheet → 1 ≤ c → c ≤ 18278 →
      1 ≤ r →
      (AddressRange.create (mkCellAddrStr sheet c r) "" Option.none).map
        Address.addr = .ok (mkCellAddrStr sheet c r)) ∧
    (∀ (sheet : String) (c1 r1 c2 r2 : ℕ), validSheetStr sheet → 1 ≤ c1 →
      c1 ≤ 18278 → 1 ≤ r1 → 1 ≤ c2 → c2 ≤ 18278 → 1 ≤ r2 →
      (c1, r1) ≠ (c2, r2) →
      (AddressRange.create (mkRangeAddrStr sheet c1 r1 c2 r2) "" Option.none).map
        Address.addr = .ok (mkRangeAddrStr sheet c1 r1 c2 r2)) :=
  ⟨create_roundtrip_cell, create_roundtrip_range⟩

/-- C9 witness: `create("S1!B3").address = "S1!B3"` and
`create("A1:B2").address = "A1:B2"`, via `C9_roundtrip`. -/
theorem C9_witness :
    (AddressRange.create "S1!B3" "" Option.none).map Address.addr =
      .ok "S1!B3" ∧
    (AddressRange.create "A1:B2" "" Option.none).map Address.addr =
      .ok "A1:B2" := by
  constructor
  · have h := C9_roundtrip.1 "S1" 2 3 ⟨by decide, by decide⟩ (by decide)
      (by decide) (by decide)
    have e : mkCellAddrStr "S1" 2 3 = "S1!B3" := by decide
    rw [e] at h
    exact h
  · have h := C9_roundtrip.2 "" 1 1 2 2 ⟨by decide, by decide⟩ (by decide)
      (by decide) (by decide) (by decide) (by decide) (by decide) (by decide)
    have e : mkRangeAddrStr "" 1 1 2 2 = "A1:B2" := by decide
    rw [e] at h
    exact h

end PycelU
